import Mathlib

/-!
Verification development for `ara_gnb_monitoring.py` (repository CrashxZ/AF25).

The Python source is shallowly embedded below:
* pure helpers (`_parse_rnti`, `_update_pkt_stats`, `_init_ue`, `_emit_snapshot`)
  become Lean functions over `Int`/`ℚ` (Python floats are modelled as exact
  rationals; all numeric values the program manipulates are decimal literals,
  so rational arithmetic matches the intent of the formulas in the source);
* the regex patterns (`P_HEADER_SIMPLE`, …) become terms of a small regex AST
  `RE`, matched by a backtracking matcher `runRE` that mirrors Python `re`
  semantics for the constructs those patterns use (single-char classes,
  greedy `+`/`*`/`?`, lazy `.*?`, alternation, capture groups, `\b`,
  `re.IGNORECASE`, and `search` = first matching start position);
* the mutable module-level state (`state`, `_buffer`, `_last_post_ms`,
  `_counts`, the two sinks) becomes an explicit `GState` record threaded
  through `process_line`;
* external collaborators are oracles: the outcome of an HTTP delivery attempt
  is a `Bool` parameter of `maybe_post_flush`, and inside `_http_post_json`
  each `urlopen` call consumes one element of a list of `UrlopenResult`s,
  with `urljoin` passed in as a function.
-/

/-! ### Character classes (ASCII, as produced by the gNB log lines) -/

/-- Python `str.lower` restricted to ASCII (all inputs here are ASCII). -/
def pyLower (c : Char) : Char :=
  if 'A' ≤ c ∧ c ≤ 'Z' then Char.ofNat (c.toNat + 32) else c

/-- regex `\d`. -/
def isDigitC (c : Char) : Bool := '0' ≤ c && c ≤ '9'

/-- regex `[0-9a-fA-F]`. -/
def isHexC (c : Char) : Bool :=
  isDigitC c || ('a' ≤ c && c ≤ 'f') || ('A' ≤ c && c ≤ 'F')

/-- lowercase hex digit `[0-9a-f]` (what remains after `.lower()`). -/
def isHexLowerC (c : Char) : Bool := isDigitC c || ('a' ≤ c && c ≤ 'f')

/-- regex `\s` / Python `str.strip` whitespace (ASCII part). -/
def isSpaceC (c : Char) : Bool :=
  c = ' ' || c = '\t' || c = '\n' || c = '\r' || c = '\x0b' || c = '\x0c'

/-- regex `.` (no DOTALL: anything but a newline). -/
def anyC (c : Char) : Bool := c ≠ '\n'

/-- regex `\w`, used by the `\b` word-boundary assertion. -/
def isWordC (c : Char) : Bool :=
  isDigitC c || ('a' ≤ c && c ≤ 'z') || ('A' ≤ c && c ≤ 'Z') || c = '_'

/-- regex `[0-9.]`, the BLER capture class. -/
def isBlerC (c : Char) : Bool := isDigitC c || c = '.'

/-- Python `str.strip()`: drop leading and trailing whitespace. -/
def pyStrip (l : List Char) : List Char :=
  ((l.dropWhile isSpaceC).reverse.dropWhile isSpaceC).reverse

/-! ### Numeric parsing (`int(s, base)`, `float(s)`) -/

/-- Value of one (possibly uppercase) hex digit. -/
def hexDigitVal (c : Char) : Nat :=
  if isDigitC c then c.toNat - 48
  else if 'a' ≤ c ∧ c ≤ 'f' then c.toNat - 97 + 10
  else if 'A' ≤ c ∧ c ≤ 'F' then c.toNat - 65 + 10
  else 0

/-- Positional value of a digit string in base `b` (Horner form): the value
`int(s, b)` returns on an unsigned digit string. -/
def pyIntBase (b : Nat) (l : List Char) : Nat :=
  l.foldl (fun acc c => b * acc + hexDigitVal c) 0

/-- `float(s)` for the shapes captured by the patterns: `-?\d+(\.\d+)?`. -/
def parseUFloat (l : List Char) : ℚ :=
  let ip := l.takeWhile isDigitC
  match l.dropWhile isDigitC with
  | '.' :: frac =>
      let fd := frac.takeWhile isDigitC
      (pyIntBase 10 ip : ℚ) + (pyIntBase 10 fd : ℚ) / ((10 : ℚ) ^ fd.length)
  | _ => (pyIntBase 10 ip : ℚ)

def parseFloat (l : List Char) : ℚ :=
  match l with
  | '-' :: rest => -(parseUFloat rest)
  | _ => parseUFloat l

/-- Python `int(q)`: truncation toward zero (`Int.tdiv` rounds toward zero,
and a `Rat` is the reduced fraction `num / den`). -/
def pyInt (q : ℚ) : Int := Int.tdiv q.num q.den

/-! ### `_parse_rnti` (source lines 143–149)

```python
def _parse_rnti(rnti_str: str) -> int:
    s = rnti_str.strip().lower()
    if s.startswith("0x"):
        s = s[2:]
    if s.isdigit():
        return int(s, 10)
    return int(s, 16)
```

`int(s, 16)` is modelled for the unsigned digit strings the classifier can
produce; where `int()` would raise `ValueError` (empty string or a character
outside `[0-9a-f]`) the model returns `none`. -/

def parse_rnti (rnti_str : List Char) : Option Int :=
  let s := (pyStrip rnti_str).map pyLower
  let s := if s.take 2 = ['0', 'x'] then s.drop 2 else s
  if s ≠ [] ∧ s.all isDigitC then some (pyIntBase 10 s : Nat)
  else if s ≠ [] ∧ s.all isHexLowerC then some (pyIntBase 16 s : Nat)
  else none

/-! ### Per-UE state (`_init_ue`, source lines 151–191) -/

/-- `ue["dl"]`. `bitrate` starts at the hardcoded constant `4e6`. -/
structure DlSide where
  cqi : Option Int := none
  ri : Option Int := none
  mcs : Option Int := none
  a : Int := 0
  errors : Int := 0
  packets_ok : Int := 0
  packets_nok : Int := 0
  drop_rate : ℚ := 0
  total_bytes : Int := 0
  last_total_bytes : Option Int := none
  last_t_ms : Option Int := none
  bitrate : ℚ := 4000000
  buffer_status : Int := 0
deriving Repr, DecidableEq

/-- `ue["ul"]`. -/
structure UlSide where
  ri : Option Int := none
  mcs : Option Int := none
  snr : Option ℚ := none
  a : Int := 0
  errors : Int := 0
  packets_ok : Int := 0
  packets_nok : Int := 0
  drop_rate : ℚ := 0
  total_bytes_rx : Int := 0
  last_total_bytes_rx : Option Int := none
  last_t_ms : Option Int := none
  bitrate : ℚ := 0
  bsr : Int := 0
  timing_advance : Int := 0
deriving Repr, DecidableEq

/-- One `UEState` dict. -/
structure UEState where
  rnti : Int
  pci : Int := 0
  sync : Option (List Char) := none
  phr : Option ℚ := none
  pcmax : Option ℚ := none
  rsrp : Option ℚ := none
  ssb_sinr : Option ℚ := none
  dl : DlSide := {}
  ul : UlSide := {}
deriving Repr, DecidableEq

/-- `_init_ue(rnti)`. -/
def init_ue (rnti : Int) : UEState := { rnti := rnti }

/-! ### `_update_pkt_stats` (source lines 207–213)

```python
def _update_pkt_stats(side):
    a = int(side.get("a", 0))
    errors = int(side.get("errors", 0))
    ok = max(0, a - errors)
    side["packets_ok"] = ok
    side["packets_nok"] = errors
    side["drop_rate"] = (errors / a * 100.0) if a > 0 else 0.0
```

The Python function mutates whichever of the two side dicts it is handed;
here it is instantiated once per side record. -/

def update_pkt_stats_core (a errors : Int) : Int × Int × ℚ :=
  (max 0 (a - errors), errors, if 0 < a then (errors : ℚ) / (a : ℚ) * 100 else 0)

def update_pkt_stats_dl (dl : DlSide) : DlSide :=
  let r := update_pkt_stats_core dl.a dl.errors
  { dl with packets_ok := r.1, packets_nok := r.2.1, drop_rate := r.2.2 }

def update_pkt_stats_ul (ul : UlSide) : UlSide :=
  let r := update_pkt_stats_core ul.a ul.errors
  { ul with packets_ok := r.1, packets_nok := r.2.1, drop_rate := r.2.2 }

/-- The dlsch branch of `process_line` (source lines 489–499): store the
scheduled count `a`, the error count and the MCS from the matched line, then
recompute the derived fields. -/
def apply_dlsch_counters (ue : UEState) (sched errs mcs : Int) : UEState :=
  { ue with dl := update_pkt_stats_dl { ue.dl with a := sched, errors := errs, mcs := some mcs } }

/-- The ulsch branch of `process_line` (source lines 501–516). -/
def apply_ulsch_counters (ue : UEState) (sched errs mcs : Int) (snr : Option ℚ) : UEState :=
  let ul := { ue.ul with a := sched, errors := errs, mcs := some mcs }
  let ul := match snr with
    | some v => { ul with snr := some v }
    | none => ul
  { ue with ul := update_pkt_stats_ul ul }

/-! ### A tiny regex engine

Just enough of Python `re` for the nine module-level patterns: all its
quantifiers (`+`, `*`, `*?`) are applied to single-character classes, the
only other constructs are sequencing, alternation, optional (greedy) groups,
capture groups (named in the source; named here by the same strings) and the
`\b` word-boundary assertion.  `re.IGNORECASE` is folded into the literals
and classes.  Matching is backtracking, continuation-passing: greedy
quantifiers offer the longest repetition first, lazy ones the shortest,
alternation prefers its left arm — exactly Python's strategy for these
constructs.  `search` tries start positions left to right. -/

/-- Captured groups: name ↦ captured characters; the head entry is the most
recent capture. -/
abbrev Caps := List (List Char × List Char)

inductive RE : Type where
  | eps : RE
  | cls (p : Char → Bool) : RE
  | seq (a b : RE) : RE
  | alt (a b : RE) : RE
  | opt (a : RE) : RE
  | star (p : Char → Bool) : RE
  | plus (p : Char → Bool) : RE
  | starL (p : Char → Bool) : RE
  | grp (n : List Char) (a : RE) : RE
  | wb : RE

/-- Length of the maximal run of characters satisfying `p` from `pos`. -/
def maxRun (full : List Char) (p : Char → Bool) (pos : Nat) : Nat :=
  ((full.drop pos).takeWhile p).length

/-- Try a list of repetition counts in order; first success wins. -/
def tryOffs (offs : List Nat) (k : Nat → Option Caps) : Option Caps :=
  match offs with
  | [] => none
  | o :: rest =>
    match k o with
    | some r => some r
    | none => tryOffs rest k

/-- The matcher.  `k` is the continuation receiving the position after the
current subpattern and the captures gathered so far. -/
def runRE (full : List Char) : RE → Nat → (Nat → Caps → Option Caps) → Caps → Option Caps
  | .eps, pos, k, caps => k pos caps
  | .cls p, pos, k, caps =>
    match (full.drop pos).head? with
    | some c => if p c then k (pos + 1) caps else none
    | none => none
  | .seq a b, pos, k, caps =>
    runRE full a pos (fun pos2 caps2 => runRE full b pos2 k caps2) caps
  | .alt a b, pos, k, caps =>
    match runRE full a pos k caps with
    | some r => some r
    | none => runRE full b pos k caps
  | .opt a, pos, k, caps =>
    match runRE full a pos k caps with
    | some r => some r
    | none => k pos caps
  | .star p, pos, k, caps =>
    tryOffs (List.range (maxRun full p pos + 1)).reverse (fun off => k (pos + off) caps)
  | .plus p, pos, k, caps =>
    tryOffs (((List.range (maxRun full p pos + 1)).reverse).filter (fun o => 0 < o))
      (fun off => k (pos + off) caps)
  | .starL p, pos, k, caps =>
    tryOffs (List.range (maxRun full p pos + 1)) (fun off => k (pos + off) caps)
  | .grp n a, pos, k, caps =>
    runRE full a pos
      (fun pos2 caps2 => k pos2 ((n, (full.drop pos).take (pos2 - pos)) :: caps2)) caps
  | .wb, pos, k, caps =>
    let before := match pos with
      | 0 => false
      | q + 1 => match (full.drop q).head? with
        | some c => isWordC c
        | none => false
    let after := match (full.drop pos).head? with
      | some c => isWordC c
      | none => false
    if before ≠ after then k pos caps else none

/-- `pattern.search(s)` restricted to a list of candidate start positions. -/
def searchFrom (full : List Char) (re : RE) : List Nat → Option Caps
  | [] => none
  | pos :: rest =>
    match runRE full re pos (fun _ caps => some caps) [] with
    | some caps => some caps
    | none => searchFrom full re rest

/-- `pattern.search(s)`: first start position (left to right) at which the
pattern matches; `none` plays the role of Python's `None`. -/
def reSearch (re : RE) (s : List Char) : Option Caps :=
  searchFrom s re (List.range (s.length + 1))

/-- Group lookup (`m.group(name)` / `m.groupdict().get(name)`). -/
def capLookup (caps : Caps) (n : List Char) : Option (List Char) :=
  match caps with
  | [] => none
  | (m, v) :: rest => if m = n then some v else capLookup rest n

/-- Case-insensitive literal (`re.IGNORECASE`). -/
def litFold (cs : List Char) : RE :=
  cs.foldr (fun c acc => .seq (.cls (fun x => pyLower x = pyLower c)) acc) .eps

def litRE (s : String) : RE := litFold s.data

/-- `-?\d+(?:\.\d+)?`. -/
def numBody : RE :=
  .seq (.opt (.cls (fun c => c = '-')))
    (.seq (.plus isDigitC) (.opt (.seq (.cls (fun c => c = '.')) (.plus isDigitC))))

/-- `(?: \([^)]*\))?`, the parenthesised qualifier after an RSRP figure. -/
def parenTail : RE :=
  .opt (.seq (litRE " (") (.seq (.star (fun c => c ≠ ')')) (litRE ")")))

/-- `(?:, average RSRP (?P<rsrp>-?\d+(?:\.\d+)?)(?: \([^)]*\))?)?`. -/
def rsrpTail : RE :=
  .opt (.seq (litRE ", average RSRP ") (.seq (.grp "rsrp".data numBody) parenTail))

/-! ### The nine module-level patterns (source lines 405–444), `re.IGNORECASE`.
Group names follow the named groups of the source. -/

/-- `UE RNTI (?P<rnti>[0-9a-fA-F]+)\s*(?:\((?P<cu>\d+)\))?.*?PH (?P<phr>-?\d+(?:\.\d+)?) dB.*?PCMAX (?P<pcmax>-?\d+(?:\.\d+)?) dBm(?:, average RSRP …)?` -/
def P_HEADER_SIMPLE : RE :=
  .seq (litRE "UE RNTI ") <| .seq (.grp "rnti".data (.plus isHexC)) <|
  .seq (.star isSpaceC) <|
  .seq (.opt (.seq (litRE "(") (.seq (.grp "cu".data (.plus isDigitC)) (litRE ")")))) <|
  .seq (.starL anyC) <| .seq (litRE "PH ") <| .seq (.grp "phr".data numBody) <|
  .seq (litRE " dB") <|
  .seq (.starL anyC) <| .seq (litRE "PCMAX ") <| .seq (.grp "pcmax".data numBody) <|
  .seq (litRE " dBm") <| rsrpTail

/-- `UE RNTI (?P<rnti>[0-9a-fA-F]+)\b.*?(?P<sync>in-sync|out-of-sync)\b.*?PH … dB.*?PCMAX … dBm(?:, average RSRP …)?(?:.*?average SINR (?P<sinsb>…))?` -/
def P_HEADER_OLD : RE :=
  .seq (litRE "UE RNTI ") <| .seq (.grp "rnti".data (.plus isHexC)) <| .seq .wb <|
  .seq (.starL anyC) <|
  .seq (.grp "sync".data (.alt (litRE "in-sync") (litRE "out-of-sync"))) <| .seq .wb <|
  .seq (.starL anyC) <| .seq (litRE "PH ") <| .seq (.grp "phr".data numBody) <|
  .seq (litRE " dB") <|
  .seq (.starL anyC) <| .seq (litRE "PCMAX ") <| .seq (.grp "pcmax".data numBody) <|
  .seq (litRE " dBm") <| .seq rsrpTail <|
  .opt (.seq (.starL anyC) (.seq (litRE "average SINR ") (.grp "sinsb".data numBody)))

/-- `UE (?P<rnti>[0-9a-fA-F]+): CQI (?P<cqi>\d+), RI (?P<ri>\d+), PMI` -/
def P_CQI : RE :=
  .seq (litRE "UE ") <| .seq (.grp "rnti".data (.plus isHexC)) <|
  .seq (litRE ": CQI ") <| .seq (.grp "cqi".data (.plus isDigitC)) <|
  .seq (litRE ", RI ") <| .seq (.grp "ri".data (.plus isDigitC)) <| litRE ", PMI"

/-- `(?P<a>\d+)\/(?P<b>\d+)\/(?P<c>\d+)\/(?P<d>\d+)`, the rounds quadruple. -/
def roundsBody : RE :=
  .seq (.grp "a".data (.plus isDigitC)) <| .seq (litRE "/") <|
  .seq (.grp "b".data (.plus isDigitC)) <| .seq (litRE "/") <|
  .seq (.grp "c".data (.plus isDigitC)) <| .seq (litRE "/") <|
  .grp "d".data (.plus isDigitC)

/-- `UE …: dlsch_rounds …, dlsch_errors (?P<errors>\d+), pucch0_DTX (?P<pucch0_dtx>\d+), BLER (?P<bler>[0-9.]+) MCS \((?P<mcs_table>\d+)\) (?P<mcs>\d+)` -/
def P_DLSCH_OLD : RE :=
  .seq (litRE "UE ") <| .seq (.grp "rnti".data (.plus isHexC)) <|
  .seq (litRE ": dlsch_rounds ") <| .seq roundsBody <|
  .seq (litRE ", dlsch_errors ") <| .seq (.grp "errors".data (.plus isDigitC)) <|
  .seq (litRE ", pucch0_DTX ") <| .seq (.grp "pucch0_dtx".data (.plus isDigitC)) <|
  .seq (litRE ", BLER ") <| .seq (.grp "bler".data (.plus isBlerC)) <|
  .seq (litRE " MCS (") <| .seq (.grp "mcs_table".data (.plus isDigitC)) <|
  .seq (litRE ") ") <| .grp "mcs".data (.plus isDigitC)

/-- Same but `MCS (?P<mcs>\d+)` without a table figure. -/
def P_DLSCH_SIMPLE : RE :=
  .seq (litRE "UE ") <| .seq (.grp "rnti".data (.plus isHexC)) <|
  .seq (litRE ": dlsch_rounds ") <| .seq roundsBody <|
  .seq (litRE ", dlsch_errors ") <| .seq (.grp "errors".data (.plus isDigitC)) <|
  .seq (litRE ", pucch0_DTX ") <| .seq (.grp "pucch0_dtx".data (.plus isDigitC)) <|
  .seq (litRE ", BLER ") <| .seq (.grp "bler".data (.plus isBlerC)) <|
  .seq (litRE " MCS ") <| .grp "mcs".data (.plus isDigitC)

/-- `UE …: ulsch_rounds …, ulsch_errors (?P<errors>\d+), ulsch_DTX (?P<dtx>\d+), BLER … MCS \((?P<mcs_table>\d+)\) (?P<mcs>\d+).*?(?:SNR (?P<snr>-?\d+(?:\.\d+)?) dB)?` -/
def P_ULSCH_OLD : RE :=
  .seq (litRE "UE ") <| .seq (.grp "rnti".data (.plus isHexC)) <|
  .seq (litRE ": ulsch_rounds ") <| .seq roundsBody <|
  .seq (litRE ", ulsch_errors ") <| .seq (.grp "errors".data (.plus isDigitC)) <|
  .seq (litRE ", ulsch_DTX ") <| .seq (.grp "dtx".data (.plus isDigitC)) <|
  .seq (litRE ", BLER ") <| .seq (.grp "bler".data (.plus isBlerC)) <|
  .seq (litRE " MCS (") <| .seq (.grp "mcs_table".data (.plus isDigitC)) <|
  .seq (litRE ") ") <| .seq (.grp "mcs".data (.plus isDigitC)) <|
  .seq (.starL anyC) <|
  .opt (.seq (litRE "SNR ") (.seq (.grp "snr".data numBody) (litRE " dB")))

/-- `UE …: ulsch_rounds …, ulsch_DTX (?P<dtx>\d+), ulsch_errors (?P<errors>\d+), BLER (?P<bler>[0-9.]+) MCS (?P<mcs>\d+)` (note DTX before errors). -/
def P_ULSCH_SIMPLE : RE :=
  .seq (litRE "UE ") <| .seq (.grp "rnti".data (.plus isHexC)) <|
  .seq (litRE ": ulsch_rounds ") <| .seq roundsBody <|
  .seq (litRE ", ulsch_DTX ") <| .seq (.grp "dtx".data (.plus isDigitC)) <|
  .seq (litRE ", ulsch_errors ") <| .seq (.grp "errors".data (.plus isDigitC)) <|
  .seq (litRE ", BLER ") <| .seq (.grp "bler".data (.plus isBlerC)) <|
  .seq (litRE " MCS ") <| .grp "mcs".data (.plus isDigitC)

/-- `UE (?P<rnti>[0-9a-fA-F]+): dlsch_total_bytes (?P<bytes>\d+)` -/
def P_DLSCH_BYTES : RE :=
  .seq (litRE "UE ") <| .seq (.grp "rnti".data (.plus isHexC)) <|
  .seq (litRE ": dlsch_total_bytes ") <| .grp "bytes".data (.plus isDigitC)

/-- `UE (?P<rnti>[0-9a-fA-F]+): ulsch_total_bytes_received (?P<bytes>\d+)` -/
def P_ULSCH_BYTES_RX : RE :=
  .seq (litRE "UE ") <| .seq (.grp "rnti".data (.plus isHexC)) <|
  .seq (litRE ": ulsch_total_bytes_received ") <| .grp "bytes".data (.plus isDigitC)

/-- `UE (?P<rnti>[0-9a-fA-F]+): LCID \d+: .*` -/
def P_LCID : RE :=
  .seq (litRE "UE ") <| .seq (.grp "rnti".data (.plus isHexC)) <|
  .seq (litRE ": LCID ") <| .seq (.plus isDigitC) <| .seq (litRE ": ") <| .star anyC

/-! ### Snapshot records (`_emit_snapshot` payload, source lines 353–386) -/

structure DlRecord where
  cqi : Int
  ri : Int
  mcs : Int
  bitrate : Int
  packets_ok : Int
  packets_nok : Int
  drop_rate : ℚ
  buffer_status : Int
deriving Repr, DecidableEq

structure UlRecord where
  pusch_sinr : ℚ
  rsrp : ℚ
  ri : Int
  mcs : Int
  bitrate : Int
  packets_ok : Int
  packets_nok : Int
  drop_rate : ℚ
  bsr : Int
  timing_advance : Int
  phr : ℚ
deriving Repr, DecidableEq

structure UERecord where
  pci : Int
  rnti : Int
  downlink : DlRecord
  uplink : UlRecord
deriving Repr, DecidableEq

structure Snapshot where
  timestamp : Int
  source : String
  ues : List UERecord
deriving Repr, DecidableEq

/-- The per-UE record of the payload built by `_emit_snapshot`: every still
unset (`None`) field is replaced by `0`; numeric casts follow the source
(`int(x or 0)`, `float(x or 0.0)` — `x or 0` is the identity on numbers
because only `0` itself is falsy). -/
def mkUERecord (ue : UEState) : UERecord :=
  { pci := ue.pci
    rnti := ue.rnti
    downlink :=
      { cqi := ue.dl.cqi.getD 0
        ri := ue.dl.ri.getD 0
        mcs := ue.dl.mcs.getD 0
        bitrate := pyInt ue.dl.bitrate
        packets_ok := ue.dl.packets_ok
        packets_nok := ue.dl.packets_nok
        drop_rate := ue.dl.drop_rate
        buffer_status := ue.dl.buffer_status }
    uplink :=
      { pusch_sinr := ue.ul.snr.getD 0
        rsrp := ue.rsrp.getD 0
        ri := ue.ul.ri.getD 0
        mcs := ue.ul.mcs.getD 0
        bitrate := pyInt ue.ul.bitrate
        packets_ok := ue.ul.packets_ok
        packets_nok := ue.ul.packets_nok
        drop_rate := ue.ul.drop_rate
        bsr := ue.ul.bsr
        timing_advance := ue.ul.timing_advance
        phr := ue.phr.getD 0 } }

/-- The whole payload dict of `_emit_snapshot`: a timestamp, the source tag,
and a one-element `ues` array. -/
def mk_snapshot (now : Int) (src : String) (ue : UEState) : Snapshot :=
  { timestamp := now, source := src, ues := [mkUERecord ue] }

/-- One flattened CSV row (`_write_csv_rows`, source lines 97–133). -/
structure CsvRow where
  timestamp : Int
  source : String
  pci : Int
  rnti : Int
  dl_cqi : Int
  dl_ri : Int
  dl_mcs : Int
  dl_bitrate : Int
  dl_packets_ok : Int
  dl_packets_nok : Int
  dl_drop_rate : ℚ
  dl_buffer_status : Int
  ul_pusch_sinr : ℚ
  ul_rsrp : ℚ
  ul_ri : Int
  ul_mcs : Int
  ul_bitrate : Int
  ul_packets_ok : Int
  ul_packets_nok : Int
  ul_drop_rate : ℚ
  ul_bsr : Int
  ul_timing_advance : Int
  ul_phr : ℚ

/-- Flatten one `ues` entry into a CSV row (the `(… or 0)` defaults of the
source are the identity here because the record fields are already plain
numbers). -/
def csv_row_of (ts : Int) (src : String) (u : UERecord) : CsvRow :=
  { timestamp := ts, source := src, pci := u.pci, rnti := u.rnti
    dl_cqi := u.downlink.cqi, dl_ri := u.downlink.ri, dl_mcs := u.downlink.mcs
    dl_bitrate := u.downlink.bitrate, dl_packets_ok := u.downlink.packets_ok
    dl_packets_nok := u.downlink.packets_nok, dl_drop_rate := u.downlink.drop_rate
    dl_buffer_status := u.downlink.buffer_status
    ul_pusch_sinr := u.uplink.pusch_sinr, ul_rsrp := u.uplink.rsrp
    ul_ri := u.uplink.ri, ul_mcs := u.uplink.mcs, ul_bitrate := u.uplink.bitrate
    ul_packets_ok := u.uplink.packets_ok, ul_packets_nok := u.uplink.packets_nok
    ul_drop_rate := u.uplink.drop_rate, ul_bsr := u.uplink.bsr
    ul_timing_advance := u.uplink.timing_advance, ul_phr := u.uplink.phr }

/-! ### Runtime configuration and pipeline state -/

inductive SendOrder where
  | latest
  | fifo
deriving Repr, DecidableEq

/-- The module-level configuration flags (set once from the CLI). -/
structure Config where
  postUrl : Option String
  sendInterval : ℚ
  oneAtATime : Bool
  sendOrder : SendOrder
  source : String
  csvEnabled : Bool

/-- Diagnostics counters (`_counts`). -/
structure Counts where
  lines : Nat := 0
  header : Nat := 0
  cqi : Nat := 0
  dlsch : Nat := 0
  ulsch : Nat := 0
  dl_bytes : Nat := 0
  ul_bytes : Nat := 0
  lcid : Nat := 0
  snapshots : Nat := 0
  posted_batches : Nat := 0
  posted_snapshots : Nat := 0
  post_errors : Nat := 0
deriving Repr, DecidableEq

/-- The mutable module-level state: the UE table (`state`), the delivery
buffer (`_buffer`), `_last_post_ms`, the counters, and the contents already
written to the two sinks (NDJSON lines and CSV rows). -/
structure GState where
  devices : Int → Option UEState
  buffer : List Snapshot
  lastPostMs : Int
  counts : Counts
  ndjson : List Snapshot
  csvRows : List CsvRow

def initialGState : GState :=
  { devices := fun _ => none, buffer := [], lastPostMs := 0, counts := {}
    ndjson := [], csvRows := [] }

/-- `_get_ue` (source lines 193–196): lazily created, never removed. -/
def get_ue (st : GState) (rnti : Int) : UEState :=
  match st.devices rnti with
  | some ue => ue
  | none => init_ue rnti

def set_ue (st : GState) (rnti : Int) (ue : UEState) : GState :=
  { st with devices := fun r => if r = rnti then some ue else st.devices r }

/-- What a single call of `_http_post_json` was asked to deliver. -/
inductive PostPayload where
  | one (s : Snapshot)
  | many (l : List Snapshot)
deriving Repr, DecidableEq

/-- `_maybe_post_flush` (source lines 302–351).  `httpOk` is the outcome the
`_http_post_json` call would return (the HTTP stack is an external
collaborator); the second component reports which payload was attempted, if
any. -/
def maybe_post_flush (cfg : Config) (now : Int) (force : Bool) (httpOk : Bool)
    (st : GState) : GState × Option PostPayload :=
  match cfg.postUrl with
  | none => (st, none)
  | some _ =>
    match st.buffer with
    | [] => (st, none)
    | b0 :: brest =>
      if force = true ∨ st.lastPostMs = 0 ∨
          pyInt (cfg.sendInterval * 1000) ≤ now - st.lastPostMs then
        if cfg.oneAtATime then
          -- send exactly one snapshot: FIFO head, or the newest (clearing the rest)
          let ib : Snapshot × List Snapshot :=
            match cfg.sendOrder with
            | .fifo => (b0, brest)
            | .latest => ((b0 :: brest).getLast (by simp), [])
          if httpOk then
            ({ st with
                buffer := ib.2,
                lastPostMs := now,
                counts := { st.counts with
                  posted_batches := st.counts.posted_batches + 1,
                  posted_snapshots := st.counts.posted_snapshots + 1 } },
             some (.one ib.1))
          else
            -- FIFO: reinsert at the head for the next retry; latest: slot stays empty
            ({ st with
                buffer := (match cfg.sendOrder with
                  | .fifo => ib.1 :: ib.2
                  | .latest => ib.2),
                counts := { st.counts with post_errors := st.counts.post_errors + 1 } },
             some (.one ib.1))
        else
          -- batch mode: the whole buffer as one array
          if httpOk then
            ({ st with
                buffer := [],
                lastPostMs := now,
                counts := { st.counts with
                  posted_batches := st.counts.posted_batches + 1,
                  posted_snapshots := st.counts.posted_snapshots + (b0 :: brest).length } },
             some (.many (b0 :: brest)))
          else
            ({ st with counts := { st.counts with post_errors := st.counts.post_errors + 1 } },
             some (.many (b0 :: brest)))
      else (st, none)

/-- `_emit_snapshot` (source lines 353–402): build the payload, write one
NDJSON line, write one CSV row per contained UE, then enqueue for posting
(replacing the buffer contents in the default one-at-a-time/latest mode). -/
def emit_snapshot (cfg : Config) (now : Int) (ue : UEState) (st : GState) :
    GState × Snapshot :=
  let payload := mk_snapshot now cfg.source ue
  let st := { st with
    ndjson := st.ndjson ++ [payload]
    counts := { st.counts with snapshots := st.counts.snapshots + 1 }
    csvRows := if cfg.csvEnabled then
        st.csvRows ++ payload.ues.map (csv_row_of payload.timestamp payload.source)
      else st.csvRows }
  let st := match cfg.postUrl with
    | some _ =>
      if cfg.oneAtATime ∧ cfg.sendOrder = .latest then
        { st with buffer := [payload] }
      else
        { st with buffer := st.buffer ++ [payload] }
    | none => st
  (st, payload)

/-! ### `process_line` (source lines 446–563) -/

/-- The outcome of the ordered pattern cascade of `process_line`: the first
structurally matching pattern wins (the two header variants, and the two
dlsch / ulsch variants, are chained with Python `or`). -/
inductive Matched where
  | header (caps : Caps)
  | cqi (caps : Caps)
  | dlsch (caps : Caps)
  | ulsch (caps : Caps)
  | dlBytes (caps : Caps)
  | ulBytes (caps : Caps)
  | lcid (caps : Caps)
  | nomatch

/-- The fixed priority order of `process_line`'s matching cascade. -/
def match_patterns (s : List Char) : Matched :=
  match (reSearch P_HEADER_SIMPLE s).orElse (fun _ => reSearch P_HEADER_OLD s) with
  | some caps => .header caps
  | none =>
  match reSearch P_CQI s with
  | some caps => .cqi caps
  | none =>
  match (reSearch P_DLSCH_SIMPLE s).orElse (fun _ => reSearch P_DLSCH_OLD s) with
  | some caps => .dlsch caps
  | none =>
  match (reSearch P_ULSCH_SIMPLE s).orElse (fun _ => reSearch P_ULSCH_OLD s) with
  | some caps => .ulsch caps
  | none =>
  match reSearch P_DLSCH_BYTES s with
  | some caps => .dlBytes caps
  | none =>
  match reSearch P_ULSCH_BYTES_RX s with
  | some caps => .ulBytes caps
  | none =>
  match reSearch P_LCID s with
  | some caps => .lcid caps
  | none => .nomatch

/-- Parse the `rnti` capture of a match (`_parse_rnti(m.group("rnti"))`). -/
def rnti_of_caps (caps : Caps) : Option Int :=
  match capLookup caps "rnti".data with
  | some v => parse_rnti v
  | none => none

/-- The header branch field merges (source lines 457–477): `phr`, `pcmax`,
`rsrp`, `ssb_sinr` are set only when the corresponding optional capture
participated in the match. -/
def apply_header_caps (ue : UEState) (caps : Caps) : UEState :=
  let ue := match capLookup caps "phr".data with
    | some v => { ue with phr := some (parseFloat v) }
    | none => ue
  let ue := match capLookup caps "pcmax".data with
    | some v => { ue with pcmax := some (parseFloat v) }
    | none => ue
  let ue := match capLookup caps "rsrp".data with
    | some v => { ue with rsrp := some (parseFloat v) }
    | none => ue
  match capLookup caps "sinsb".data with
  | some v => { ue with ssb_sinr := some (parseFloat v) }
  | none => ue

/-- Bump one diagnostics counter. -/
def bumpHeader (c : Counts) : Counts := { c with header := c.header + 1 }
def bumpCqi (c : Counts) : Counts := { c with cqi := c.cqi + 1 }
def bumpDlsch (c : Counts) : Counts := { c with dlsch := c.dlsch + 1 }
def bumpUlsch (c : Counts) : Counts := { c with ulsch := c.ulsch + 1 }
def bumpDlBytes (c : Counts) : Counts := { c with dl_bytes := c.dl_bytes + 1 }
def bumpUlBytes (c : Counts) : Counts := { c with ul_bytes := c.ul_bytes + 1 }
def bumpLcid (c : Counts) : Counts := { c with lcid := c.lcid + 1 }

/-- `process_line(line)`.  Returns the new state and the list of snapshots
emitted while processing this line (empty or a singleton).  `now` stands for
`_now_ms()` during this call and `httpOk` for the outcome of the HTTP attempt
should the flush fire.  In the branches below, a failing `_parse_rnti`
(impossible for a string captured by `[0-9a-fA-F]+`, see
`rnti_capture_parses`) is modelled as leaving the state unchanged. -/
def process_line (cfg : Config) (now : Int) (httpOk : Bool) (st0 : GState)
    (line : List Char) : GState × List Snapshot :=
  let st := { st0 with counts := { st0.counts with lines := st0.counts.lines + 1 } }
  match pyStrip line with
  | [] => (st, [])
  | c :: srest =>
    let s := c :: srest
    if c = '[' then
      -- bracketed status line: no classification, but the periodic flush check runs
      ((maybe_post_flush cfg now false httpOk st).1, [])
    else
      match match_patterns s with
      | .header caps =>
        match rnti_of_caps caps with
        | none => (st, [])
        | some rnti =>
          let ue := apply_header_caps (get_ue st rnti) caps
          let st := set_ue st rnti ue
          let st := { st with counts := bumpHeader st.counts }
          ((maybe_post_flush cfg now false httpOk st).1, [])
      | .cqi caps =>
        match rnti_of_caps caps with
        | none => (st, [])
        | some rnti =>
          let ue := get_ue st rnti
          let cqi := ((capLookup caps "cqi".data).map (fun v => (pyIntBase 10 v : Int))).getD 0
          let ri := ((capLookup caps "ri".data).map (fun v => (pyIntBase 10 v : Int))).getD 0
          let ue := { ue with dl := { ue.dl with cqi := some cqi, ri := some ri } }
          let st := set_ue st rnti ue
          let st := { st with counts := bumpCqi st.counts }
          ((maybe_post_flush cfg now false httpOk st).1, [])
      | .dlsch caps =>
        match rnti_of_caps caps with
        | none => (st, [])
        | some rnti =>
          let sched := ((capLookup caps "a".data).map (fun v => (pyIntBase 10 v : Int))).getD 0
          let errs := ((capLookup caps "errors".data).map (fun v => (pyIntBase 10 v : Int))).getD 0
          let mcs := ((capLookup caps "mcs".data).map (fun v => (pyIntBase 10 v : Int))).getD 0
          let ue := apply_dlsch_counters (get_ue st rnti) sched errs mcs
          let st := set_ue st rnti ue
          let st := { st with counts := bumpDlsch st.counts }
          ((maybe_post_flush cfg now false httpOk st).1, [])
      | .ulsch caps =>
        match rnti_of_caps caps with
        | none => (st, [])
        | some rnti =>
          let sched := ((capLookup caps "a".data).map (fun v => (pyIntBase 10 v : Int))).getD 0
          let errs := ((capLookup caps "errors".data).map (fun v => (pyIntBase 10 v : Int))).getD 0
          let mcs := ((capLookup caps "mcs".data).map (fun v => (pyIntBase 10 v : Int))).getD 0
          -- `if m.groupdict().get("snr"):` — present AND nonempty (truthiness)
          let snr := match capLookup caps "snr".data with
            | some v => if v ≠ [] then some (parseFloat v) else none
            | none => none
          let ue := apply_ulsch_counters (get_ue st rnti) sched errs mcs snr
          let st := set_ue st rnti ue
          let st := { st with counts := bumpUlsch st.counts }
          ((maybe_post_flush cfg now false httpOk st).1, [])
      | .dlBytes caps =>
        match rnti_of_caps caps with
        | none => (st, [])
        | some rnti =>
          let ue := get_ue st rnti
          let total := ((capLookup caps "bytes".data).map (fun v => (pyIntBase 10 v : Int))).getD 0
          -- `bps = 4e6` — the bitrate computation is stubbed to a constant
          let ue := { ue with dl := { ue.dl with
            bitrate := 4000000, total_bytes := total,
            last_total_bytes := some total, last_t_ms := some now } }
          let st := set_ue st rnti ue
          let st := { st with counts := bumpDlBytes st.counts }
          ((maybe_post_flush cfg now false httpOk st).1, [])
      | .ulBytes caps =>
        match rnti_of_caps caps with
        | none => (st, [])
        | some rnti =>
          let ue := get_ue st rnti
          let total := ((capLookup caps "bytes".data).map (fun v => (pyIntBase 10 v : Int))).getD 0
          let ue := { ue with ul := { ue.ul with
            bitrate := 4000000, total_bytes_rx := total,
            last_total_bytes_rx := some total, last_t_ms := some now } }
          let st := set_ue st rnti ue
          let st := { st with counts := bumpUlBytes st.counts }
          let es := emit_snapshot cfg now ue st
          ((maybe_post_flush cfg now false httpOk es.1).1, [es.2])
      | .lcid caps =>
        match rnti_of_caps caps with
        | none => (st, [])
        | some rnti =>
          let ue := get_ue st rnti
          let st := set_ue st rnti ue
          let st := { st with counts := bumpLcid st.counts }
          let es := emit_snapshot cfg now ue st
          ((maybe_post_flush cfg now false httpOk es.1).1, [es.2])
      | .nomatch => (st, [])

/-- The classification a line receives under the fixed first-match-wins
pattern order of `process_line`, with the two pre-checks (blank line,
bracketed status line) included. -/
inductive LineClass where
  | empty
  | bracketed
  | header
  | cqi
  | dlsch
  | ulsch
  | dlBytes
  | ulBytes
  | lcid
  | unmatched
deriving Repr, DecidableEq

def classify_line (line : List Char) : LineClass :=
  match pyStrip line with
  | [] => .empty
  | c :: srest =>
    if c = '[' then .bracketed
    else
      match match_patterns (c :: srest) with
      | .header _ => .header
      | .cqi _ => .cqi
      | .dlsch _ => .dlsch
      | .ulsch _ => .ulsch
      | .dlBytes _ => .dlBytes
      | .ulBytes _ => .ulBytes
      | .lcid _ => .lcid
      | .nomatch => .unmatched

/-- Feed a list of lines through `process_line`, collecting every emitted
snapshot (the `stream_gnb_log` read loop, minus the file I/O). -/
def runLines (cfg : Config) (now : Int) (httpOk : Bool) :
    GState → List (List Char) → GState × List Snapshot
  | st, [] => (st, [])
  | st, l :: rest =>
    let r := process_line cfg now httpOk st l
    let r2 := runLines cfg now httpOk r.1 rest
    (r2.1, r.2 ++ r2.2)

/-! ### `_http_post_json` (source lines 215–300)

The HTTP stack (`urllib.request.urlopen`) is an external collaborator; each
call consumes one element of an oracle list of results.  `urljoin` is
likewise external and passed in as a function.  Timing (sleep/backoff delays)
has no observable effect on the returned outcome and is not modelled.  The
function returns the boolean outcome together with the trace of requests it
issued (every request the source builds is
`request.Request(current_url, data=data, headers=headers, method="POST")`). -/

/-- One result of a `urlopen` call: a response object (no exception), an
`HTTPError` with a status code and optional `Location` header, a `URLError`,
or any other exception. -/
inductive UrlopenResult where
  | ok (code : Nat)
  | httpError (code : Nat) (location : Option String)
  | urlError
  | otherExn
deriving Repr, DecidableEq

/-- One issued HTTP request. -/
structure HttpAttempt where
  method : String
  url : String
  body : String
deriving Repr, DecidableEq

/-- The 405 handler's URL variant: trailing slash removed if present,
appended otherwise. -/
def toggle_slash (u : String) : String :=
  if u.endsWith "/" then u.dropRight 1 else u ++ "/"

/-- `code in (301, 302, 303, 307, 308)`. -/
def isRedirectCode (code : Nat) : Prop :=
  code = 301 ∨ code = 302 ∨ code = 303 ∨ code = 307 ∨ code = 308

instance (code : Nat) : Decidable (isRedirectCode code) := by
  unfold isRedirectCode; infer_instance

/-- `code in (429, 500, 502, 503, 504)`. -/
def isTransientCode (code : Nat) : Prop :=
  code = 429 ∨ code = 500 ∨ code = 502 ∨ code = 503 ∨ code = 504

instance (code : Nat) : Decidable (isTransientCode code) := by
  unfold isTransientCode; infer_instance

/-- The `while True` loop of `_http_post_json`, with loop variables
`current_url`, `attempt` and `redirects` explicit (`max_redirects = 5`).
When the oracle list is exhausted the loop is cut off with a failure after
recording the request it was about to issue. -/
def http_post_json_loop (uj : String → String → String) (data : String)
    (retries : Int) :
    List UrlopenResult → String → Int → Int → Bool × List HttpAttempt
  | [], currentUrl, _, _ => (false, [⟨"POST", currentUrl, data⟩])
  | r :: rest, currentUrl, attempt, redirects =>
    let req : HttpAttempt := ⟨"POST", currentUrl, data⟩
    match r with
    | .ok code =>
      -- the non-exception path: 2xx is success, anything else immediate failure
      if 200 ≤ code ∧ code < 300 then (true, [req]) else (false, [req])
    | .httpError code loc =>
      if isRedirectCode code then
        -- follow redirects, preserving POST
        match loc with
        | none => (false, [req])
        | some l =>
          if 5 < redirects + 1 then (false, [req])
          else
            let res := http_post_json_loop uj data retries rest (uj currentUrl l)
              attempt (redirects + 1)
            (res.1, req :: res.2)
      else if code = 405 ∧ toggle_slash currentUrl ≠ currentUrl then
        -- 405: retry with the slash-toggled URL variant (falls through to the
        -- generic handling below only when the variant equals the URL)
        let res := http_post_json_loop uj data retries rest (toggle_slash currentUrl)
          attempt redirects
        (res.1, req :: res.2)
      else
        if ¬ isTransientCode code ∨ retries < attempt + 1 then (false, [req])
        else
          let res := http_post_json_loop uj data retries rest currentUrl
            (attempt + 1) redirects
          (res.1, req :: res.2)
    | .urlError =>
      if retries < attempt + 1 then (false, [req])
      else
        let res := http_post_json_loop uj data retries rest currentUrl
          (attempt + 1) redirects
        (res.1, req :: res.2)
    | .otherExn =>
      if retries < attempt + 1 then (false, [req])
      else
        let res := http_post_json_loop uj data retries rest currentUrl
          (attempt + 1) redirects
        (res.1, req :: res.2)

/-- `_http_post_json(url, obj, timeout, retries)` with `attempt = 0`,
`redirects = 0`. -/
def http_post_json (uj : String → String → String) (data : String)
    (retries : Int) (responses : List UrlopenResult) (url : String) :
    Bool × List HttpAttempt :=
  http_post_json_loop uj data retries responses url 0 0

/-! ## Claim theorems -/

/-! ### C1: derived packet statistics -/

/-- **C1.** For every schedule-report event (downlink or uplink) applied to a
device aggregate, the derived fields are recomputed fresh from the scheduled
and error counters carried by that event, discarding any prior derived
values: `packets_ok = max(0, scheduled - errors)`, `packets_nok = errors`,
`drop_rate = errors/scheduled*100` when `scheduled > 0` and exactly `0` when
`scheduled = 0`; consequently, whenever `scheduled > 0` and
`errors ≤ scheduled`, `packets_ok + packets_nok = scheduled`.  The statement
quantifies over an arbitrary prior aggregate `ue`, so the result is
independent of any previously stored derived values. -/
theorem schedule_report_derived_fields (ue : UEState) (sched errs mcs : Int) (snr : Option ℚ) :
    (apply_dlsch_counters ue sched errs mcs).dl.packets_ok = max 0 (sched - errs) ∧
    (apply_dlsch_counters ue sched errs mcs).dl.packets_nok = errs ∧
    (apply_dlsch_counters ue sched errs mcs).dl.drop_rate =
      (if 0 < sched then (errs : ℚ) / (sched : ℚ) * 100 else 0) ∧
    (apply_ulsch_counters ue sched errs mcs snr).ul.packets_ok = max 0 (sched - errs) ∧
    (apply_ulsch_counters ue sched errs mcs snr).ul.packets_nok = errs ∧
    (apply_ulsch_counters ue sched errs mcs snr).ul.drop_rate =
      (if 0 < sched then (errs : ℚ) / (sched : ℚ) * 100 else 0) ∧
    (0 < sched → errs ≤ sched →
      (apply_dlsch_counters ue sched errs mcs).dl.packets_ok +
        (apply_dlsch_counters ue sched errs mcs).dl.packets_nok = sched ∧
      (apply_ulsch_counters ue sched errs mcs snr).ul.packets_ok +
        (apply_ulsch_counters ue sched errs mcs snr).ul.packets_nok = sched) := by
  refine ⟨?_, ?_, ?_, ?_, ?_, ?_, fun h1 h2 => ⟨?_, ?_⟩⟩ <;>
    cases snr <;>
    simp only [apply_dlsch_counters, apply_ulsch_counters, update_pkt_stats_dl,
      update_pkt_stats_ul, update_pkt_stats_core] <;>
    first
      | rfl
      | omega

/-- Witness for `schedule_report_derived_fields` at `scheduled = 100`,
`errors = 5`. -/
theorem schedule_report_derived_fields_witness :
    (apply_dlsch_counters (init_ue 1) 100 5 9).dl.packets_ok +
      (apply_dlsch_counters (init_ue 1) 100 5 9).dl.packets_nok = 100 ∧
    (apply_ulsch_counters (init_ue 1) 100 5 9 none).ul.packets_ok +
      (apply_ulsch_counters (init_ue 1) 100 5 9 none).ul.packets_nok = 100 :=
  (schedule_report_derived_fields (init_ue 1) 100 5 9 none).2.2.2.2.2.2
    (by decide) (by decide)

/-! ### C8: snapshot built from a freshly created device state -/

/-- `int(4e6) = 4000000`. -/
theorem pyInt_const_4e6 : pyInt (4000000 : ℚ) = 4000000 := by
  unfold pyInt; norm_num

/-- `int(0) = 0`. -/
theorem pyInt_zero : pyInt (0 : ℚ) = 0 := by
  unfold pyInt; norm_num

/-- **C8, counterexample.**  The claim says a snapshot built from a freshly
created device state has *all* metrics — including both bitrate fields —
equal to 0/0.0.  In fact the downlink bitrate of a fresh `_init_ue` state is
the hardcoded constant `4e6`, so the snapshot shows `4000000`, not `0`. -/
theorem fresh_snapshot_dl_bitrate_not_zero :
    ((mk_snapshot 0 "OAI" (init_ue 1)).ues.map fun u => u.downlink.bitrate) =
      [(4000000 : Int)] ∧
    ¬ ((mk_snapshot 0 "OAI" (init_ue 1)).ues.map fun u => u.downlink.bitrate) =
      [(0 : Int)] := by
  have h1 : ((mk_snapshot 0 "OAI" (init_ue 1)).ues.map fun u => u.downlink.bitrate) =
      [(4000000 : Int)] := by
    simp [mk_snapshot, mkUERecord, init_ue, pyInt_const_4e6]
  exact ⟨h1, by rw [h1]; decide⟩

/-- **C8, amended.**  Snapshot building is a pure function of the device's
current field values; every still-unset field appears as the
type-appropriate zero default, so a snapshot built from a freshly created
device state has all downlink and uplink metrics equal to 0/0.0 — *except*
the downlink bitrate, which `_init_ue` initialises to the hardcoded constant
`4e6` and therefore appears as `4000000`. -/
theorem snapshot_build_fresh_defaults (r now : Int) (src : String) :
    mk_snapshot now src (init_ue r) =
      { timestamp := now, source := src,
        ues := [{ pci := 0, rnti := r,
                  downlink := { cqi := 0, ri := 0, mcs := 0, bitrate := 4000000,
                                packets_ok := 0, packets_nok := 0, drop_rate := 0,
                                buffer_status := 0 },
                  uplink := { pusch_sinr := 0, rsrp := 0, ri := 0, mcs := 0,
                              bitrate := 0, packets_ok := 0, packets_nok := 0,
                              drop_rate := 0, bsr := 0, timing_advance := 0,
                              phr := 0 } }] } := by
  simp [mk_snapshot, mkUERecord, init_ue, pyInt_const_4e6, pyInt_zero]

/-! ### C10: one emission, one device record, one line, one row -/

/-- **C10.**  Every emitted snapshot's `ues` array contains exactly one
device record — the record of the single device the triggering line
identified — regardless of how many devices the state store tracks; one
emission appends exactly one NDJSON line and (when the CSV sink is
configured) exactly one CSV row. -/
theorem emit_snapshot_single_record (cfg : Config) (now : Int) (ue : UEState)
    (st : GState) :
    (emit_snapshot cfg now ue st).2.ues = [mkUERecord ue] ∧
    (emit_snapshot cfg now ue st).1.ndjson =
      st.ndjson ++ [(emit_snapshot cfg now ue st).2] ∧
    (emit_snapshot cfg now ue st).1.csvRows =
      (if cfg.csvEnabled then
        st.csvRows ++ [csv_row_of now cfg.source (mkUERecord ue)]
      else st.csvRows) ∧
    (mkUERecord ue).rnti = ue.rnti := by
  unfold emit_snapshot mk_snapshot
  cases hurl : cfg.postUrl <;>
    by_cases hmode : (cfg.oneAtATime ∧ cfg.sendOrder = SendOrder.latest) <;>
    by_cases hcsv : cfg.csvEnabled = true <;>
    simp [hurl, hmode, hcsv, mkUERecord]

/-! ### C3: the four-line scenario -/

def scenarioLine1 : List Char :=
  "UE RNTI 64 ... PH 10 dB PCMAX 23 dBm, average RSRP -80".data
def scenarioLine2 : List Char := "UE 64: CQI 10, RI 2, PMI ...".data
def scenarioLine3 : List Char :=
  "UE 64: dlsch_rounds 100/0/0/0, dlsch_errors 5, pucch0_DTX 0, BLER 0.05 MCS 10".data
def scenarioLine4 : List Char := "UE 64: ulsch_total_bytes_received 2048".data

/-- The default configuration of the scenario: no POST URL, defaults
otherwise (`--one-at-a-time`, `--send-order latest`, source `OAI`). -/
def scenarioCfg : Config :=
  { postUrl := none, sendInterval := 1, oneAtATime := true,
    sendOrder := .latest, source := "OAI", csvEnabled := true }

/-- The snapshot the code actually emits for the scenario (at `now = 1000`). -/
def scenarioSnap : Snapshot :=
  { timestamp := 1000, source := "OAI",
    ues := [{ pci := 0, rnti := 64,
              downlink := { cqi := 10, ri := 2, mcs := 10, bitrate := 4000000,
                            packets_ok := 95, packets_nok := 5, drop_rate := 5,
                            buffer_status := 0 },
              uplink := { pusch_sinr := 0, rsrp := -80, ri := 0, mcs := 0,
                          bitrate := 4000000, packets_ok := 0, packets_nok := 0,
                          drop_rate := 0, bsr := 0, timing_advance := 0,
                          phr := 10 } }] }

/-- **C3, counterexample.**  The claim expects the emitted snapshot to carry
device id 100; the code parses `"64"` (all decimal digits) in base 10 and the
emitted snapshot carries device id 64. -/
theorem scenario_device_id_is_64_not_100 :
    ((runLines scenarioCfg 1000 true initialGState
        [scenarioLine1, scenarioLine2, scenarioLine3, scenarioLine4]).2.map
      fun p => p.ues.map fun u => u.rnti) = [[(64 : Int)]] ∧
    (64 : Int) ≠ 100 := by
  constructor
  · with_unfolding_all rfl
  · decide

set_option maxRecDepth 10000 in
/-- **C3, amended.**  Processing the four scenario lines in order emits
exactly one snapshot, triggered by the final (uplink byte-counter) line and
by none of the first three; it shows device id 64 (decimal, since `"64"` is
all digits), downlink `cqi = 10`, `ri = 2`, `mcs = 10`, `packets_ok = 95`,
`packets_nok = 5`, `drop_rate = 5.0`. -/
theorem scenario_snapshot_emitted :
    (runLines scenarioCfg 1000 true initialGState
      [scenarioLine1, scenarioLine2, scenarioLine3]).2 = [] ∧
    (runLines scenarioCfg 1000 true initialGState
      [scenarioLine1, scenarioLine2, scenarioLine3, scenarioLine4]).2 =
      [scenarioSnap] := by
  constructor
  · with_unfolding_all rfl
  · with_unfolding_all rfl

/-! ### Character-level lemmas

Everything is reduced to `Char.toNat` arithmetic so that `omega` can finish. -/

theorem char_le_iff {a b : Char} : a ≤ b ↔ a.toNat ≤ b.toNat := Iff.rfl

theorem char_eq_of_toNat {a b : Char} (h : a.toNat = b.toNat) : a = b :=
  Char.ext (UInt32.toNat.inj h)

theorem char_eq_iff {a b : Char} : a = b ↔ a.toNat = b.toNat :=
  ⟨fun h => h ▸ rfl, char_eq_of_toNat⟩

theorem char_toNat_ofNat_valid {n : Nat} (h : n.isValidChar) :
    (Char.ofNat n).toNat = n := by
  unfold Char.ofNat
  rw [dif_pos h]
  rfl

theorem pyLower_toNat (c : Char) :
    (pyLower c).toNat = if 65 ≤ c.toNat ∧ c.toNat ≤ 90 then c.toNat + 32 else c.toNat := by
  unfold pyLower
  by_cases h : 65 ≤ c.toNat ∧ c.toNat ≤ 90
  · rw [if_pos, if_pos h]
    · exact char_toNat_ofNat_valid (Or.inl (by omega))
    · exact ⟨char_le_iff.mpr (by simpa using h.1), char_le_iff.mpr (by simpa using h.2)⟩
  · rw [if_neg, if_neg h]
    intro hc
    exact h ⟨by simpa using char_le_iff.mp hc.1, by simpa using char_le_iff.mp hc.2⟩

/-- Code points of the hex-letter boundary characters. -/
theorem hexLetterCodes :
    ('a' : Char).toNat = 97 ∧ ('f' : Char).toNat = 102 ∧
    ('A' : Char).toNat = 65 ∧ ('F' : Char).toNat = 70 :=
  ⟨rfl, rfl, rfl, rfl⟩

theorem isDigitC_iff {c : Char} : isDigitC c = true ↔ 48 ≤ c.toNat ∧ c.toNat ≤ 57 := by
  have h0 : ('0' : Char).toNat = 48 := rfl
  have h9 : ('9' : Char).toNat = 57 := rfl
  simp [isDigitC, char_le_iff, h0, h9]

theorem isHexC_iff {c : Char} :
    isHexC c = true ↔ (48 ≤ c.toNat ∧ c.toNat ≤ 57) ∨ (97 ≤ c.toNat ∧ c.toNat ≤ 102) ∨
      (65 ≤ c.toNat ∧ c.toNat ≤ 70) := by
  obtain ⟨ha, hf, hA, hF⟩ := hexLetterCodes
  simp [isHexC, isDigitC_iff, char_le_iff, ha, hf, hA, hF, or_assoc]

theorem isHexLowerC_iff {c : Char} :
    isHexLowerC c = true ↔ (48 ≤ c.toNat ∧ c.toNat ≤ 57) ∨ (97 ≤ c.toNat ∧ c.toNat ≤ 102) := by
  obtain ⟨ha, hf, -, -⟩ := hexLetterCodes
  simp [isHexLowerC, isDigitC_iff, char_le_iff, ha, hf]

theorem isSpaceC_iff {c : Char} :
    isSpaceC c = true ↔ c.toNat = 32 ∨ c.toNat = 9 ∨ c.toNat = 10 ∨ c.toNat = 13 ∨
      c.toNat = 11 ∨ c.toNat = 12 := by
  have h1 : (' ' : Char).toNat = 32 := rfl
  have h2 : ('\t' : Char).toNat = 9 := rfl
  have h3 : ('\n' : Char).toNat = 10 := rfl
  have h4 : ('\r' : Char).toNat = 13 := rfl
  have h5 : ('\x0b' : Char).toNat = 11 := rfl
  have h6 : ('\x0c' : Char).toNat = 12 := rfl
  simp [isSpaceC, char_eq_iff, h1, h2, h3, h4, h5, h6, or_assoc]

theorem hexDigitVal_toNat (c : Char) :
    hexDigitVal c =
      if 48 ≤ c.toNat ∧ c.toNat ≤ 57 then c.toNat - 48
      else if 97 ≤ c.toNat ∧ c.toNat ≤ 102 then c.toNat - 97 + 10
      else if 65 ≤ c.toNat ∧ c.toNat ≤ 70 then c.toNat - 65 + 10
      else 0 := by
  obtain ⟨ha, hf, hA, hF⟩ := hexLetterCodes
  unfold hexDigitVal
  by_cases h1 : 48 ≤ c.toNat ∧ c.toNat ≤ 57
  · rw [if_pos (isDigitC_iff.mpr h1), if_pos h1]
  · rw [if_neg (fun hc => h1 (isDigitC_iff.mp hc)), if_neg h1]
    by_cases h2 : 97 ≤ c.toNat ∧ c.toNat ≤ 102
    · rw [if_pos ⟨char_le_iff.mpr (by omega), char_le_iff.mpr (by omega)⟩, if_pos h2]
    · rw [if_neg, if_neg h2]
      · by_cases h3 : 65 ≤ c.toNat ∧ c.toNat ≤ 70
        · rw [if_pos ⟨char_le_iff.mpr (by omega), char_le_iff.mpr (by omega)⟩, if_pos h3]
        · rw [if_neg, if_neg h3]
          intro hc
          exact h3 ⟨by simpa [hA] using char_le_iff.mp hc.1,
            by simpa [hF] using char_le_iff.mp hc.2⟩
      · intro hc
        exact h2 ⟨by simpa [ha] using char_le_iff.mp hc.1,
          by simpa [hf] using char_le_iff.mp hc.2⟩

theorem pyLower_of_digit {c : Char} (h : isDigitC c = true) : pyLower c = c := by
  have := isDigitC_iff.mp h
  exact char_eq_of_toNat (by rw [pyLower_toNat, if_neg (by omega)])

theorem isDigitC_pyLower {c : Char} : isDigitC (pyLower c) = isDigitC c := by
  by_cases h : 65 ≤ c.toNat ∧ c.toNat ≤ 90
  · have h1 : isDigitC (pyLower c) = false := by
      rw [← Bool.not_eq_true]
      intro hc
      have := isDigitC_iff.mp hc
      rw [pyLower_toNat, if_pos h] at this
      omega
    have h2 : isDigitC c = false := by
      rw [← Bool.not_eq_true]
      intro hc
      have := isDigitC_iff.mp hc
      omega
    rw [h1, h2]
  · have : pyLower c = c := char_eq_of_toNat (by rw [pyLower_toNat, if_neg h])
    rw [this]

theorem isHexLowerC_pyLower_of_hex {c : Char} (h : isHexC c = true) :
    isHexLowerC (pyLower c) = true := by
  rcases isHexC_iff.mp h with h1 | h1 | h1 <;>
    refine isHexLowerC_iff.mpr ?_ <;>
    rw [pyLower_toNat] <;> split <;> omega

theorem pyLower_ne_x_of_hex {c : Char} (h : isHexC c = true) : pyLower c ≠ 'x' := by
  intro hc
  have hx : ('x' : Char).toNat = 120 := rfl
  have := char_eq_iff.mp hc
  rw [pyLower_toNat, hx] at this
  rcases isHexC_iff.mp h with h1 | h1 | h1 <;> revert this <;> split <;> omega

theorem isSpaceC_of_hex {c : Char} (h : isHexC c = true) : isSpaceC c = false := by
  rw [← Bool.not_eq_true]
  intro hc
  have h1 := isSpaceC_iff.mp hc
  rcases isHexC_iff.mp h with h2 | h2 | h2 <;> omega

theorem hexDigitVal_pyLower {c : Char} : hexDigitVal (pyLower c) = hexDigitVal c := by
  rw [hexDigitVal_toNat, hexDigitVal_toNat (c := c), pyLower_toNat]
  by_cases h : 65 ≤ c.toNat ∧ c.toNat ≤ 90
  · rw [if_pos h]
    split_ifs <;> omega
  · rw [if_neg h]

/-! ### List-level helpers for `strip` and positional values -/

theorem dropWhile_eq_self_of_false {p : Char → Bool} :
    ∀ {l : List Char}, (∀ c ∈ l, p c = false) → l.dropWhile p = l
  | [], _ => rfl
  | c :: rest, h => by
    have := h c (by simp)
    simp [List.dropWhile, this]

theorem pyStrip_eq_self {l : List Char} (h : ∀ c ∈ l, isSpaceC c = false) :
    pyStrip l = l := by
  unfold pyStrip
  rw [dropWhile_eq_self_of_false h,
    dropWhile_eq_self_of_false (fun c hc => h c (List.mem_reverse.mp hc)),
    List.reverse_reverse]

theorem pyIntBase_map_pyLower {b : Nat} :
    ∀ {l : List Char}, (∀ c ∈ l, isHexC c = true) →
      pyIntBase b (l.map pyLower) = pyIntBase b l := by
  have gen : ∀ (l : List Char) (acc : Nat), (∀ c ∈ l, isHexC c = true) →
      List.foldl (fun acc c => b * acc + hexDigitVal c) acc (l.map pyLower) =
      List.foldl (fun acc c => b * acc + hexDigitVal c) acc l := by
    intro l
    induction l with
    | nil => intro acc _; rfl
    | cons c rest ih =>
      intro acc h
      simp only [List.map_cons, List.foldl_cons, hexDigitVal_pyLower]
      exact ih _ (fun d hd => h d (by simp [hd]))
  exact fun {l} h => gen l 0 h

theorem map_pyLower_of_digits {l : List Char} (h : ∀ c ∈ l, isDigitC c = true) :
    l.map pyLower = l := by
  induction l with
  | nil => rfl
  | cons c rest ih =>
    simp only [List.map_cons]
    rw [pyLower_of_digit (h c (by simp)), ih (fun d hd => h d (by simp [hd]))]

/-! ### Correctness of `_parse_rnti` on classifier-accepted identifiers -/

theorem all_isDigitC_map_pyLower (l : List Char) :
    (l.map pyLower).all isDigitC = l.all isDigitC := by
  induction l with
  | nil => rfl
  | cons c rest ih => simp [isDigitC_pyLower, ih]

/-- The branch structure of `_parse_rnti` after stripping and lowercasing. -/
theorem parse_rnti_branch {t : List Char} (h1 : t ≠ [])
    (h2 : ∀ c ∈ t, isHexC c = true) :
    (if t.map pyLower ≠ [] ∧ (t.map pyLower).all isDigitC then
      some ((pyIntBase 10 (t.map pyLower) : Nat) : Int)
    else if t.map pyLower ≠ [] ∧ (t.map pyLower).all isHexLowerC then
      some ((pyIntBase 16 (t.map pyLower) : Nat) : Int)
    else none) =
    some (if t.all isDigitC then ((pyIntBase 10 t : Nat) : Int)
          else ((pyIntBase 16 t : Nat) : Int)) := by
  have hne : t.map pyLower ≠ [] := by
    intro hc
    exact h1 (List.map_eq_nil_iff.mp hc)
  by_cases hd : t.all isDigitC = true
  · have hmap : t.map pyLower = t :=
      map_pyLower_of_digits (fun c hc => List.all_eq_true.mp hd c hc)
    rw [if_pos ⟨hne, by rw [hmap]; exact hd⟩, hmap, if_pos hd]
  · have hall : (t.map pyLower).all isDigitC = false := by
      rw [all_isDigitC_map_pyLower]
      exact Bool.not_eq_true _ ▸ hd
    have hhex : (t.map pyLower).all isHexLowerC = true := by
      rw [List.all_map, List.all_eq_true]
      exact fun c hc => isHexLowerC_pyLower_of_hex (h2 c hc)
    rw [if_neg (by simp [hall]), if_pos ⟨hne, hhex⟩, if_neg hd,
      pyIntBase_map_pyLower h2]

/-- After lowercasing, an all-hex identifier cannot start with the marker
`"0x"` (the letter `x` is not a hex digit). -/
theorem map_pyLower_take_two_ne {t : List Char} (h2 : ∀ c ∈ t, isHexC c = true) :
    (t.map pyLower).take 2 ≠ ['0', 'x'] := by
  match t with
  | [] => simp
  | [c] => simp
  | c1 :: c2 :: rest =>
    intro hc
    simp only [List.map_cons, List.take, List.cons.injEq] at hc
    exact pyLower_ne_x_of_hex (h2 c2 (by simp)) hc.2.1

/-- **C2.**  For every device-identifier string accepted by the classifier
(a non-empty string of `[0-9a-fA-F]` characters), with or without a leading
hex prefix marker (`0x` / `0X`): after stripping the marker, if the
remaining text consists only of decimal digits the parser returns its
base-10 positional value, otherwise it returns its base-16 positional
value. -/
theorem parse_rnti_decimal_or_hex (t : List Char) (h1 : t ≠ [])
    (h2 : ∀ c ∈ t, isHexC c = true) :
    parse_rnti t =
      some (if t.all isDigitC then ((pyIntBase 10 t : Nat) : Int)
            else ((pyIntBase 16 t : Nat) : Int)) ∧
    parse_rnti ('0' :: 'x' :: t) =
      some (if t.all isDigitC then ((pyIntBase 10 t : Nat) : Int)
            else ((pyIntBase 16 t : Nat) : Int)) ∧
    parse_rnti ('0' :: 'X' :: t) =
      some (if t.all isDigitC then ((pyIntBase 10 t : Nat) : Int)
            else ((pyIntBase 16 t : Nat) : Int)) := by
  have hnospace : ∀ c ∈ t, isSpaceC c = false :=
    fun c hc => isSpaceC_of_hex (h2 c hc)
  have h0 : isSpaceC '0' = false := rfl
  have hx : isSpaceC 'x' = false := rfl
  have hX : isSpaceC 'X' = false := rfl
  refine ⟨?_, ?_, ?_⟩
  · show parse_rnti t = _
    simp only [parse_rnti]
    rw [pyStrip_eq_self hnospace, if_neg (map_pyLower_take_two_ne h2)]
    exact parse_rnti_branch h1 h2
  · show parse_rnti ('0' :: 'x' :: t) = _
    simp only [parse_rnti]
    rw [pyStrip_eq_self ?_]
    · have hmap : ('0' :: 'x' :: t).map pyLower = '0' :: 'x' :: t.map pyLower := by
        simp only [List.map_cons]
        rfl
      rw [hmap]
      have htake : ('0' :: 'x' :: t.map pyLower).take 2 = ['0', 'x'] := rfl
      rw [if_pos htake]
      exact parse_rnti_branch h1 h2
    · intro c hc
      rcases hc with _ | ⟨_, hc⟩
      · exact h0
      · rcases hc with _ | ⟨_, hc⟩
        · exact hx
        · exact hnospace c hc
  · show parse_rnti ('0' :: 'X' :: t) = _
    simp only [parse_rnti]
    rw [pyStrip_eq_self ?_]
    · have hmap : ('0' :: 'X' :: t).map pyLower = '0' :: 'x' :: t.map pyLower := by
        simp only [List.map_cons]
        congr 1
      rw [hmap]
      have htake : ('0' :: 'x' :: t.map pyLower).take 2 = ['0', 'x'] := rfl
      rw [if_pos htake]
      exact parse_rnti_branch h1 h2
    · intro c hc
      rcases hc with _ | ⟨_, hc⟩
      · exact h0
      · rcases hc with _ | ⟨_, hc⟩
        · exact hX
        · exact hnospace c hc

/-- Witness for `parse_rnti_decimal_or_hex`: `"64"` parses as decimal 64
(with and without marker), `"2a"` as hexadecimal 42. -/
theorem parse_rnti_decimal_or_hex_witness :
    parse_rnti "64".data = some 64 ∧ parse_rnti "0x64".data = some 64 ∧
    parse_rnti "2a".data = some 42 := by
  have h1 := (parse_rnti_decimal_or_hex "64".data (by decide) (by decide)).1
  have h2 := (parse_rnti_decimal_or_hex "64".data (by decide) (by decide)).2.1
  have h3 := (parse_rnti_decimal_or_hex "2a".data (by decide) (by decide)).1
  refine ⟨?_, ?_, ?_⟩
  · rw [h1]; decide
  · show parse_rnti ('0' :: 'x' :: "64".data) = some 64
    rw [h2]; decide
  · rw [h3]; decide

/-! ### C4 / C5: delivery-buffer retention policies -/

/-- In one-at-a-time/latest mode a flush either leaves the buffer untouched
(not due, empty, or posting disabled) or empties it — on success *and* on
failure (the failed item is not reinserted). -/
theorem maybe_post_flush_buffer_latest (cfg : Config) (now : Int) (force httpOk : Bool)
    (st : GState) (h1 : cfg.oneAtATime = true) (h2 : cfg.sendOrder = .latest) :
    (maybe_post_flush cfg now force httpOk st).1.buffer = [] ∨
    (maybe_post_flush cfg now force httpOk st).1.buffer = st.buffer := by
  unfold maybe_post_flush
  simp only [h1, h2, if_true]
  split
  · exact Or.inr rfl
  · split
    · exact Or.inr rfl
    · split
      · cases httpOk <;> exact Or.inl rfl
      · exact Or.inr rfl

/-- In one-at-a-time/latest mode with posting enabled, `_emit_snapshot`
replaces the whole buffer with the single new payload. -/
theorem emit_snapshot_buffer_latest (cfg : Config) (now : Int) (ue : UEState)
    (st : GState) (h1 : cfg.oneAtATime = true) (h2 : cfg.sendOrder = .latest)
    (hurl : cfg.postUrl.isSome = true) :
    (emit_snapshot cfg now ue st).1.buffer = [(emit_snapshot cfg now ue st).2] := by
  obtain ⟨u, hu⟩ := Option.isSome_iff_exists.mp hurl
  unfold emit_snapshot
  rw [hu]
  simp [h1, h2]

/-- Step invariant: in one-at-a-time/latest mode, processing any line keeps
the delivery buffer at length at most 1. -/
theorem process_line_buffer_latest_len (cfg : Config) (h1 : cfg.oneAtATime = true)
    (h2 : cfg.sendOrder = .latest) (now : Int) (httpOk : Bool) (st : GState)
    (line : List Char) (hlen : st.buffer.length ≤ 1) :
    (process_line cfg now httpOk st line).1.buffer.length ≤ 1 := by
  have flush_len : ∀ (st' : GState), st'.buffer.length ≤ 1 →
      (maybe_post_flush cfg now false httpOk st').1.buffer.length ≤ 1 := by
    intro st' h
    rcases maybe_post_flush_buffer_latest cfg now false httpOk st' h1 h2 with hf | hf <;>
      rw [hf]
    · exact Nat.zero_le 1
    · exact h
  have emit_len : ∀ (ue : UEState) (st' : GState), st'.buffer.length ≤ 1 →
      (emit_snapshot cfg now ue st').1.buffer.length ≤ 1 := by
    intro ue st' h
    cases hurl : cfg.postUrl with
    | none =>
      show (emit_snapshot cfg now ue st').1.buffer.length ≤ 1
      unfold emit_snapshot
      rw [hurl]
      exact h
    | some u =>
      rw [emit_snapshot_buffer_latest cfg now ue st' h1 h2 (by rw [hurl]; rfl)]
      exact Nat.le_refl 1
  unfold process_line
  split
  · exact hlen
  · split
    · exact flush_len _ hlen
    · dsimp only
      split <;>
        (try split) <;>
        first
          | exact hlen
          | exact flush_len _ hlen
          | exact flush_len _ (emit_len _ _ hlen)

/-- **C4.**  In single-slot-latest mode (the default one-at-a-time mode with
send order `latest`), the delivery buffer holds at most one pending snapshot
at every point between operations: each newly emitted snapshot
unconditionally replaces whatever was buffered; a due flush on the sole slot
`[x]` attempts delivery of exactly that object and removes the slot, and
after a failed delivery the slot stays empty (the failed item is not
reinserted, and only the error counter is bumped), while a successful one
records the send time — so along any sequence of processed lines the buffer
length never exceeds 1. -/
theorem single_slot_latest_invariant (cfg : Config) (h1 : cfg.oneAtATime = true)
    (h2 : cfg.sendOrder = .latest) :
    (∀ now ue st, cfg.postUrl.isSome = true →
      (emit_snapshot cfg now ue st).1.buffer = [(emit_snapshot cfg now ue st).2]) ∧
    (∀ (now : Int) (force : Bool) (st : GState) (x : Snapshot),
      cfg.postUrl.isSome = true → st.buffer = [x] →
      (force = true ∨ st.lastPostMs = 0 ∨
        pyInt (cfg.sendInterval * 1000) ≤ now - st.lastPostMs) →
      (maybe_post_flush cfg now force false st).2 = some (.one x) ∧
      (maybe_post_flush cfg now force false st).1.buffer = [] ∧
      (maybe_post_flush cfg now force false st).1.counts.post_errors =
        st.counts.post_errors + 1 ∧
      (maybe_post_flush cfg now force true st).2 = some (.one x) ∧
      (maybe_post_flush cfg now force true st).1.buffer = [] ∧
      (maybe_post_flush cfg now force true st).1.lastPostMs = now) ∧
    (∀ now httpOk st line, st.buffer.length ≤ 1 →
      (process_line cfg now httpOk st line).1.buffer.length ≤ 1) := by
  refine ⟨fun now ue st hurl => emit_snapshot_buffer_latest cfg now ue st h1 h2 hurl,
    ?_,
    fun now httpOk st line hlen =>
      process_line_buffer_latest_len cfg h1 h2 now httpOk st line hlen⟩
  intro now force st x hurl hbuf hdue
  obtain ⟨u, hu⟩ := Option.isSome_iff_exists.mp hurl
  unfold maybe_post_flush
  simp only [hu, hbuf, h1, h2, if_pos hdue, if_true, Bool.false_eq_true, if_false]
  refine ⟨?_, ?_, ?_, ?_, ?_, ?_⟩ <;> trivial

/-- The default delivery configuration (one-at-a-time, latest) with posting
enabled. -/
def cfgLatest : Config :=
  { postUrl := some "http://ingest", sendInterval := 1, oneAtATime := true,
    sendOrder := .latest, source := "OAI", csvEnabled := false }

def latestSnap : Snapshot := mk_snapshot 0 "OAI" (init_ue 1)

def latestState : GState := { initialGState with buffer := [latestSnap] }

/-- Witness for `single_slot_latest_invariant`: a fresh emission under the
default configuration leaves exactly the new payload in the buffer, and a
due flush on the sole slot leaves the buffer empty whether delivery fails or
succeeds. -/
theorem single_slot_latest_invariant_witness :
    (emit_snapshot cfgLatest 0 (init_ue 1) initialGState).1.buffer =
      [(emit_snapshot cfgLatest 0 (init_ue 1) initialGState).2] ∧
    (maybe_post_flush cfgLatest 5 false false latestState).2 =
      some (.one latestSnap) ∧
    (maybe_post_flush cfgLatest 5 false false latestState).1.buffer = [] ∧
    (maybe_post_flush cfgLatest 5 false true latestState).1.buffer = [] := by
  have h := single_slot_latest_invariant cfgLatest rfl rfl
  have hf := h.2.1 5 false latestState latestSnap rfl rfl (Or.inr (Or.inl rfl))
  exact ⟨h.1 0 (init_ue 1) initialGState rfl, hf.1, hf.2.1, hf.2.2.2.2.1⟩

/-- **C5.**  In FIFO one-at-a-time mode, a due flush removes exactly the head
snapshot of the queue and attempts delivery of that single object; if
delivery fails, the item is reinserted at the head (the buffer is unchanged
and the error counter incremented), and if delivery succeeds the item is
permanently removed and the send time recorded. -/
theorem fifo_flush_head_retry (cfg : Config) (now : Int) (force : Bool)
    (st : GState) (x : Snapshot) (rest : List Snapshot)
    (h1 : cfg.oneAtATime = true) (h2 : cfg.sendOrder = .fifo)
    (hurl : cfg.postUrl.isSome = true) (hbuf : st.buffer = x :: rest)
    (hdue : force = true ∨ st.lastPostMs = 0 ∨
      pyInt (cfg.sendInterval * 1000) ≤ now - st.lastPostMs) :
    (maybe_post_flush cfg now force false st).2 = some (.one x) ∧
    (maybe_post_flush cfg now force false st).1.buffer = x :: rest ∧
    (maybe_post_flush cfg now force false st).1.counts.post_errors =
      st.counts.post_errors + 1 ∧
    (maybe_post_flush cfg now force true st).2 = some (.one x) ∧
    (maybe_post_flush cfg now force true st).1.buffer = rest ∧
    (maybe_post_flush cfg now force true st).1.lastPostMs = now ∧
    (maybe_post_flush cfg now force true st).1.counts.posted_snapshots =
      st.counts.posted_snapshots + 1 := by
  obtain ⟨u, hu⟩ := Option.isSome_iff_exists.mp hurl
  unfold maybe_post_flush
  simp only [hu, hbuf, h1, h2, if_pos hdue, if_true, Bool.false_eq_true, if_false]
  refine ⟨?_, ?_, ?_, ?_, ?_, ?_, ?_⟩ <;> trivial

/-- The FIFO delivery configuration with posting enabled. -/
def cfgFifo : Config :=
  { postUrl := some "http://ingest", sendInterval := 1, oneAtATime := true,
    sendOrder := .fifo, source := "OAI", csvEnabled := false }

def fifoSnapA : Snapshot := mk_snapshot 0 "OAI" (init_ue 1)
def fifoSnapB : Snapshot := mk_snapshot 1 "OAI" (init_ue 2)

def fifoState : GState := { initialGState with buffer := [fifoSnapA, fifoSnapB] }

/-- Witness for `fifo_flush_head_retry` on a two-element queue: a failed
flush leaves the queue unchanged, a successful one removes only the head. -/
theorem fifo_flush_head_retry_witness :
    (maybe_post_flush cfgFifo 5 false false fifoState).1.buffer =
      [fifoSnapA, fifoSnapB] ∧
    (maybe_post_flush cfgFifo 5 false true fifoState).1.buffer = [fifoSnapB] := by
  have h := fifo_flush_head_retry cfgFifo 5 false fifoState fifoSnapA [fifoSnapB]
    rfl rfl rfl rfl (Or.inr (Or.inl rfl))
  exact ⟨h.2.1, h.2.2.2.2.1⟩

/-! ### C6 / C7: HTTP delivery attempts -/

/-- Every request the loop ever issues is a `POST` carrying the original
body — the method is never converted to `GET`. -/
theorem http_post_json_loop_all_post (uj : String → String → String)
    (data : String) (retries : Int) :
    ∀ (responses : List UrlopenResult) (url : String) (attempt redirects : Int),
      ∀ a ∈ (http_post_json_loop uj data retries responses url attempt redirects).2,
        a.method = "POST" ∧ a.body = data := by
  intro responses
  induction responses with
  | nil =>
    intro url attempt redirects a ha
    simp only [http_post_json_loop, List.mem_singleton] at ha
    subst ha
    exact ⟨rfl, rfl⟩
  | cons r rest ih =>
    intro url attempt redirects a ha
    simp only [http_post_json_loop] at ha
    rcases r with code | ⟨code, loc⟩ | _ | _ <;> dsimp only at ha
    · split at ha <;> (simp at ha; subst ha; exact ⟨rfl, rfl⟩)
    · split at ha
      · rcases loc with _ | l <;> dsimp only at ha
        · simp at ha
          subst ha
          exact ⟨rfl, rfl⟩
        · split at ha
          · simp at ha
            subst ha
            exact ⟨rfl, rfl⟩
          · simp at ha
            rcases ha with ha | ha
            · subst ha; exact ⟨rfl, rfl⟩
            · exact ih _ _ _ a ha
      · split at ha
        · simp at ha
          rcases ha with ha | ha
          · subst ha; exact ⟨rfl, rfl⟩
          · exact ih _ _ _ a ha
        · split at ha
          · simp at ha
            subst ha
            exact ⟨rfl, rfl⟩
          · simp at ha
            rcases ha with ha | ha
            · subst ha; exact ⟨rfl, rfl⟩
            · exact ih _ _ _ a ha
    · split at ha
      · simp at ha
        subst ha
        exact ⟨rfl, rfl⟩
      · simp at ha
        rcases ha with ha | ha
        · subst ha; exact ⟨rfl, rfl⟩
        · exact ih _ _ _ a ha
    · split at ha
      · simp at ha
        subst ha
        exact ⟨rfl, rfl⟩
      · simp at ha
        rcases ha with ha | ha
        · subst ha; exact ⟨rfl, rfl⟩
        · exact ih _ _ _ a ha

/-- **C6.**  For every delivery attempt answered with a 3xx status carrying a
`Location` header, the client re-issues the request to the resolved location
(`urljoin current location`) as a `POST` with the same body — it never
converts to a `GET` — up to the fixed cap of 5 redirects; a 3xx response
missing the `Location` header, or one redirect beyond the cap, makes the
attempt fail. -/
theorem redirect_preserves_post (uj : String → String → String) (data : String)
    (retries : Int) :
    (∀ (responses : List UrlopenResult) (url : String) (attempt redirects : Int),
      ∀ a ∈ (http_post_json_loop uj data retries responses url attempt redirects).2,
        a.method = "POST" ∧ a.body = data) ∧
    (∀ (code : Nat) (l url : String) (rest : List UrlopenResult)
        (attempt redirects : Int), isRedirectCode code → redirects + 1 ≤ 5 →
      http_post_json_loop uj data retries
          (.httpError code (some l) :: rest) url attempt redirects =
        ((http_post_json_loop uj data retries rest (uj url l) attempt (redirects + 1)).1,
         ⟨"POST", url, data⟩ ::
           (http_post_json_loop uj data retries rest (uj url l) attempt (redirects + 1)).2)) ∧
    (∀ (code : Nat) (url : String) (rest : List UrlopenResult)
        (attempt redirects : Int), isRedirectCode code →
      http_post_json_loop uj data retries
          (.httpError code none :: rest) url attempt redirects =
        (false, [⟨"POST", url, data⟩])) ∧
    (∀ (code : Nat) (l url : String) (rest : List UrlopenResult)
        (attempt redirects : Int), isRedirectCode code → 5 < redirects + 1 →
      http_post_json_loop uj data retries
          (.httpError code (some l) :: rest) url attempt redirects =
        (false, [⟨"POST", url, data⟩])) := by
  refine ⟨http_post_json_loop_all_post uj data retries, ?_, ?_, ?_⟩
  · intro code l url rest attempt redirects hcode hcap
    rw [http_post_json_loop]
    dsimp only
    rw [if_pos hcode, if_neg (by omega)]
  · intro code url rest attempt redirects hcode
    rw [http_post_json_loop]
    dsimp only
    rw [if_pos hcode]
  · intro code l url rest attempt redirects hcode hcap
    rw [http_post_json_loop]
    dsimp only
    rw [if_pos hcode, if_pos hcap]

/-- Witness for `redirect_preserves_post`: a 301 with a `Location` header is
re-issued as a `POST` with the same body to the new location, and succeeds
when that location answers 200. -/
theorem redirect_preserves_post_witness :
    http_post_json (fun _ l => l) "body" 3
        [.httpError 301 (some "http://new"), .ok 200] "http://old" =
      (true, [⟨"POST", "http://old", "body"⟩, ⟨"POST", "http://new", "body"⟩]) := by
  have h := (redirect_preserves_post (fun _ l => l) "body" 3).2.1 301 "http://new"
    "http://old" [.ok 200] 0 0 (by decide) (by decide)
  unfold http_post_json
  rw [h]
  rfl

/-- **C7.**  The claim says a 405 answer triggers at most one retry (with the
trailing-slash-toggled URL) and that a server answering 405 to both variants
makes the attempt fail rather than retry further.  In the code the toggled
variant never equals the current URL, so the 405 handler keeps toggling and
re-issuing without bound: three consecutive 405 answers produce four issued
requests with alternating URLs (the loop only stops here because the oracle
is exhausted; against a live server it would loop forever), contradicting the
one-retry contract stated by the claim and by the source's own comment
("Handle 405 by toggling trailing slash once"). -/
theorem http_405_retries_unbounded :
    http_post_json (fun _ l => l) "body" 3
        [.httpError 405 none, .httpError 405 none, .httpError 405 none]
        "http://h/x" =
      (false, [⟨"POST", "http://h/x", "body"⟩, ⟨"POST", "http://h/x/", "body"⟩,
               ⟨"POST", "http://h/x", "body"⟩, ⟨"POST", "http://h/x/", "body"⟩]) := by
  with_unfolding_all rfl

/-! ### C9: emission is triggered exactly by the `ul_bytes` / `lcid` classes

The one non-structural step is showing that the `rnti` capture of a match is
a non-empty hex string, so `_parse_rnti` cannot fail on it.  The lemmas
below extract that from the matcher. -/

/-- The capture-group names occurring in a pattern. -/
def grpNames : RE → List (List Char)
  | .eps => []
  | .cls _ => []
  | .seq a b => grpNames a ++ grpNames b
  | .alt a b => grpNames a ++ grpNames b
  | .opt a => grpNames a
  | .star _ => []
  | .plus _ => []
  | .starL _ => []
  | .grp n a => n :: grpNames a
  | .wb => []

theorem tryOffs_success {offs : List Nat} {k : Nat → Option Caps} {r : Caps}
    (h : tryOffs offs k = some r) : ∃ o ∈ offs, k o = some r := by
  induction offs with
  | nil => exact absurd h (by simp [tryOffs])
  | cons o rest ih =>
    rw [tryOffs] at h
    rcases ho : k o with _ | v
    · rw [ho] at h
      obtain ⟨o2, ho2, hk⟩ := ih h
      exact ⟨o2, by simp [ho2], hk⟩
    · rw [ho] at h
      exact ⟨o, by simp, by rw [ho, ← h]⟩

/-- A successful run of the matcher calls its continuation at some position
with the incoming captures extended only by groups named in the pattern. -/
theorem runRE_success (full : List Char) :
    ∀ (re : RE) (pos : Nat) (k : Nat → Caps → Option Caps) (caps r : Caps),
      runRE full re pos k caps = some r →
      ∃ pos2 ext, (∀ e ∈ ext, e.1 ∈ grpNames re) ∧ k pos2 (ext ++ caps) = some r := by
  intro re
  induction re with
  | eps =>
    intro pos k caps r h
    exact ⟨pos, [], by simp, h⟩
  | cls p =>
    intro pos k caps r h
    rw [runRE] at h
    rcases hh : (full.drop pos).head? with _ | c <;> rw [hh] at h <;> dsimp only at h
    · exact absurd h (by simp)
    · rcases hp : p c with _ | _ <;> rw [hp] at h
      · exact absurd h (by simp)
      · rw [if_pos rfl] at h
        exact ⟨pos + 1, [], by simp, h⟩
  | seq a b iha ihb =>
    intro pos k caps r h
    rw [runRE] at h
    obtain ⟨p2, ea, hea, hk1⟩ := iha pos _ caps r h
    obtain ⟨p3, eb, heb, hk⟩ := ihb p2 k (ea ++ caps) r hk1
    refine ⟨p3, eb ++ ea, ?_, by rw [List.append_assoc]; exact hk⟩
    intro e he
    rcases List.mem_append.mp he with he | he
    · exact List.mem_append.mpr (Or.inr (heb e he))
    · exact List.mem_append.mpr (Or.inl (hea e he))
  | alt a b iha ihb =>
    intro pos k caps r h
    rw [runRE] at h
    rcases ha : runRE full a pos k caps with _ | v <;> rw [ha] at h
    · obtain ⟨p2, ext, hext, hk⟩ := ihb pos k caps r h
      exact ⟨p2, ext, fun e he => List.mem_append.mpr (Or.inr (hext e he)), hk⟩
    · rw [Option.some.injEq] at h
      subst h
      obtain ⟨p2, ext, hext, hk⟩ := iha pos k caps v ha
      exact ⟨p2, ext, fun e he => List.mem_append.mpr (Or.inl (hext e he)), hk⟩
  | opt a iha =>
    intro pos k caps r h
    rw [runRE] at h
    rcases ha : runRE full a pos k caps with _ | v <;> rw [ha] at h
    · exact ⟨pos, [], by simp, h⟩
    · rw [Option.some.injEq] at h
      subst h
      obtain ⟨p2, ext, hext, hk⟩ := iha pos k caps v ha
      exact ⟨p2, ext, hext, hk⟩
  | star p =>
    intro pos k caps r h
    rw [runRE] at h
    obtain ⟨o, _, hk⟩ := tryOffs_success h
    exact ⟨pos + o, [], by simp, hk⟩
  | plus p =>
    intro pos k caps r h
    rw [runRE] at h
    obtain ⟨o, _, hk⟩ := tryOffs_success h
    exact ⟨pos + o, [], by simp, hk⟩
  | starL p =>
    intro pos k caps r h
    rw [runRE] at h
    obtain ⟨o, _, hk⟩ := tryOffs_success h
    exact ⟨pos + o, [], by simp, hk⟩
  | grp n a iha =>
    intro pos k caps r h
    rw [runRE] at h
    obtain ⟨p2, ea, hea, hk⟩ := iha pos _ caps r h
    refine ⟨p2, (n, (full.drop pos).take (p2 - pos)) :: ea, ?_, hk⟩
    intro e he
    rcases List.mem_cons.mp he with he | he
    · rw [he]
      exact List.mem_cons_self _ _
    · exact List.mem_cons_of_mem _ (hea e he)
  | wb =>
    intro pos k caps r h
    rw [runRE.eq_def] at h
    dsimp only at h
    split at h
    · exact ⟨pos, [], by simp, h⟩
    · exact absurd h (by simp)

theorem all_of_take_le_takeWhile {p : Char → Bool} :
    ∀ (l : List Char) (n : Nat), n ≤ (l.takeWhile p).length →
      ∀ c ∈ l.take n, p c = true := by
  intro l
  induction l with
  | nil => intro n _ c hc; simp at hc
  | cons a rest ih =>
    intro n hn c hc
    rcases hp : p a with _ | _
    · rw [List.takeWhile_cons_of_neg (by simp [hp])] at hn
      simp at hn
      subst hn
      simp at hc
    · rw [List.takeWhile_cons_of_pos (by simp [hp])] at hn
      rcases n with _ | m
      · simp at hc
      · simp only [List.take_succ_cons, List.mem_cons] at hc
        rcases hc with hc | hc
        · exact hc ▸ hp
        · exact ih m (by simpa using hn) c hc

theorem searchFrom_success {full : List Char} {re : RE} :
    ∀ {poss : List Nat} {caps : Caps}, searchFrom full re poss = some caps →
      ∃ pos, runRE full re pos (fun _ c => some c) [] = some caps := by
  intro poss
  induction poss with
  | nil => intro caps h; exact absurd h (by simp [searchFrom])
  | cons pos rest ih =>
    intro caps h
    rw [searchFrom] at h
    rcases hr : runRE full re pos (fun _ c => some c) [] with _ | v <;> rw [hr] at h
    · exact ih h
    · rw [Option.some.injEq] at h
      subst h
      exact ⟨pos, hr⟩

theorem grpNames_litFold (cs : List Char) : grpNames (litFold cs) = [] := by
  induction cs with
  | nil => rfl
  | cons c rest ih => simp [litFold, grpNames, List.foldr] at ih ⊢; exact ih

theorem ext_nil_of_names_nil {ext : Caps} (h : ∀ e ∈ ext, e.1 ∈ ([] : List (List Char))) :
    ext = [] := by
  cases ext with
  | nil => rfl
  | cons e rest => exact absurd (h e (by simp)) (by simp)

theorem capLookup_append_of_not_mem {e1 l2 : Caps} {key : List Char}
    (h : ∀ e ∈ e1, e.1 ≠ key) : capLookup (e1 ++ l2) key = capLookup l2 key := by
  induction e1 with
  | nil => rfl
  | cons e rest ih =>
    rw [List.cons_append, capLookup, if_neg (h e (by simp))]
    exact ih (fun e' he' => h e' (by simp [he']))

/-- Patterns of the shape `lit ++ (?P<rnti>[0-9a-fA-F]+) ++ rest` (with
`rnti` not re-used in `rest`) always deliver a non-empty all-hex `rnti`
capture on success. -/
theorem search_rnti_capture (cs : List Char) (rest : RE)
    (hn : "rnti".data ∉ grpNames rest) {s : List Char} {caps : Caps}
    (h : reSearch (.seq (litFold cs) (.seq (.grp "rnti".data (.plus isHexC)) rest)) s
      = some caps) :
    ∃ cap, capLookup caps "rnti".data = some cap ∧ cap ≠ [] ∧
      ∀ c ∈ cap, isHexC c = true := by
  obtain ⟨pos, hrun⟩ := searchFrom_success h
  rw [runRE] at hrun
  obtain ⟨p1, e0, he0, hk1⟩ := runRE_success s _ pos _ [] caps hrun
  rw [grpNames_litFold] at he0
  rw [ext_nil_of_names_nil he0] at hk1
  rw [List.nil_append, runRE, runRE] at hk1
  rw [runRE] at hk1
  obtain ⟨o, ho, hko⟩ := tryOffs_success hk1
  have ho2 : 1 ≤ o ∧ o ≤ maxRun s isHexC p1 := by
    rw [List.mem_filter, List.mem_reverse, List.mem_range] at ho
    simp only [decide_eq_true_eq] at ho
    omega
  obtain ⟨p3, e1, he1, htop⟩ := runRE_success s rest (p1 + o) _ _ caps hko
  dsimp only at htop
  rw [Option.some.injEq] at htop
  subst htop
  have hidx : p1 + o - p1 = o := by omega
  refine ⟨List.take (p1 + o - p1) (List.drop p1 s), ?_, ?_, ?_⟩
  · rw [capLookup_append_of_not_mem (fun e he hkey => hn (by rw [← hkey]; exact he1 e he)),
      capLookup, if_pos rfl]
  · have hlen1 : maxRun s isHexC p1 ≤ (List.drop p1 s).length := by
      unfold maxRun
      exact (List.takeWhile_sublist _).length_le
    have : (List.take (p1 + o - p1) (List.drop p1 s)).length = o := by
      rw [hidx, List.length_take]
      omega
    intro hc
    rw [hc] at this
    simp at this
    omega
  · rw [hidx]
    exact all_of_take_le_takeWhile (List.drop p1 s) o ho2.2

theorem parse_rnti_some_of_hex {cap : List Char} (h1 : cap ≠ [])
    (h2 : ∀ c ∈ cap, isHexC c = true) : ∃ n, parse_rnti cap = some n :=
  ⟨_, (parse_rnti_decimal_or_hex cap h1 h2).1⟩

/-- The `rnti` capture of a `P_ULSCH_BYTES_RX` match always parses. -/
theorem rnti_of_caps_ulBytes {s : List Char} {caps : Caps}
    (h : reSearch P_ULSCH_BYTES_RX s = some caps) :
    ∃ n, rnti_of_caps caps = some n := by
  have h' : reSearch (.seq (litFold "UE ".data)
      (.seq (.grp "rnti".data (.plus isHexC))
        (.seq (litFold ": ulsch_total_bytes_received ".data)
          (.grp "bytes".data (.plus isDigitC))))) s = some caps := h
  obtain ⟨cap, hcap, hne, hhex⟩ := search_rnti_capture _ _ (by decide) h'
  obtain ⟨n, hn⟩ := parse_rnti_some_of_hex hne hhex
  refine ⟨n, ?_⟩
  unfold rnti_of_caps
  rw [hcap]
  exact hn

/-- The `rnti` capture of a `P_LCID` match always parses. -/
theorem rnti_of_caps_lcid {s : List Char} {caps : Caps}
    (h : reSearch P_LCID s = some caps) :
    ∃ n, rnti_of_caps caps = some n := by
  have h' : reSearch (.seq (litFold "UE ".data)
      (.seq (.grp "rnti".data (.plus isHexC))
        (.seq (litFold ": LCID ".data)
          (.seq (.plus isDigitC) (.seq (litFold ": ".data) (.star anyC)))))) s
      = some caps := h
  obtain ⟨cap, hcap, hne, hhex⟩ := search_rnti_capture _ _ (by decide) h'
  obtain ⟨n, hn⟩ := parse_rnti_some_of_hex hne hhex
  refine ⟨n, ?_⟩
  unfold rnti_of_caps
  rw [hcap]
  exact hn

theorem match_patterns_ulBytes_inv {s : List Char} {caps : Caps}
    (h : match_patterns s = .ulBytes caps) :
    reSearch P_ULSCH_BYTES_RX s = some caps := by
  unfold match_patterns at h
  split at h
  · exact absurd h (by simp)
  · split at h
    · exact absurd h (by simp)
    · split at h
      · exact absurd h (by simp)
      · split at h
        · exact absurd h (by simp)
        · split at h
          · exact absurd h (by simp)
          · split at h
            · injection h with hc
              subst hc
              assumption
            · split at h
              · exact absurd h (by simp)
              · exact absurd h (by simp)

theorem match_patterns_lcid_inv {s : List Char} {caps : Caps}
    (h : match_patterns s = .lcid caps) :
    reSearch P_LCID s = some caps := by
  unfold match_patterns at h
  split at h
  · exact absurd h (by simp)
  · split at h
    · exact absurd h (by simp)
    · split at h
      · exact absurd h (by simp)
      · split at h
        · exact absurd h (by simp)
        · split at h
          · exact absurd h (by simp)
          · split at h
            · exact absurd h (by simp)
            · split at h
              · injection h with hc
                subst hc
                assumption
              · exact absurd h (by simp)

theorem maybe_post_flush_devices (cfg : Config) (now : Int) (force httpOk : Bool)
    (st : GState) :
    (maybe_post_flush cfg now force httpOk st).1.devices = st.devices := by
  unfold maybe_post_flush
  split
  · rfl
  · split
    · rfl
    · dsimp only
      split
      · split
        · split <;> rfl
        · split <;> rfl
      · rfl

/-- **C9.**  For every processed log line, a snapshot is emitted if and only
if the line classifies (under the fixed first-match-wins pattern order) as an
uplink byte-counter report or as the generic per-device marker (LCID line);
header, channel-quality, downlink/uplink schedule-report and downlink
byte-counter lines never emit, and unmatched, bracketed or blank lines leave
the device-state store untouched. -/
theorem emission_iff_trigger_class (cfg : Config) (now : Int) (httpOk : Bool)
    (st : GState) (line : List Char) :
    ((process_line cfg now httpOk st line).2 ≠ [] ↔
      (classify_line line = .ulBytes ∨ classify_line line = .lcid)) ∧
    ((classify_line line = .unmatched ∨ classify_line line = .bracketed ∨
        classify_line line = .empty) →
      (process_line cfg now httpOk st line).1.devices = st.devices) := by
  unfold process_line classify_line
  rcases hps : pyStrip line with _ | ⟨c, srest⟩ <;> simp only [hps]
  · exact ⟨by simp, fun _ => trivial⟩
  · by_cases hc : c = '['
    · rw [if_pos hc, if_pos hc]
      refine ⟨by simp, fun _ => ?_⟩
      exact maybe_post_flush_devices cfg now false httpOk _
    · rw [if_neg hc, if_neg hc]
      cases hm : match_patterns (c :: srest)
      · rename_i caps
        refine ⟨?_, fun h => ?_⟩
        · cases hr : rnti_of_caps caps <;> simp [hr]
        · rcases h with h | h | h <;> simp at h
      · rename_i caps
        refine ⟨?_, fun h => ?_⟩
        · cases hr : rnti_of_caps caps <;> simp [hr]
        · rcases h with h | h | h <;> simp at h
      · rename_i caps
        refine ⟨?_, fun h => ?_⟩
        · cases hr : rnti_of_caps caps <;> simp [hr]
        · rcases h with h | h | h <;> simp at h
      · rename_i caps
        refine ⟨?_, fun h => ?_⟩
        · cases hr : rnti_of_caps caps <;> simp [hr]
        · rcases h with h | h | h <;> simp at h
      · rename_i caps
        refine ⟨?_, fun h => ?_⟩
        · cases hr : rnti_of_caps caps <;> simp [hr]
        · rcases h with h | h | h <;> simp at h
      · rename_i caps
        obtain ⟨n, hn⟩ := rnti_of_caps_ulBytes (match_patterns_ulBytes_inv hm)
        refine ⟨by simp [hn], fun h => ?_⟩
        rcases h with h | h | h <;> simp at h
      · rename_i caps
        obtain ⟨n, hn⟩ := rnti_of_caps_lcid (match_patterns_lcid_inv hm)
        refine ⟨by simp [hn], fun h => ?_⟩
        rcases h with h | h | h <;> simp at h
      · exact ⟨by simp, fun _ => rfl⟩

/-- Witness for `emission_iff_trigger_class`: an unmatched line leaves the
device table untouched, and an uplink byte-counter line emits. -/
theorem emission_iff_trigger_class_witness :
    (process_line scenarioCfg 1000 true initialGState "noise".data).1.devices =
      initialGState.devices ∧
    (process_line scenarioCfg 1000 true initialGState scenarioLine4).2 ≠ [] := by
  constructor
  · exact (emission_iff_trigger_class scenarioCfg 1000 true initialGState
      "noise".data).2 (Or.inl (by rfl))
  · exact ((emission_iff_trigger_class scenarioCfg 1000 true initialGState
      scenarioLine4).1).mpr (Or.inl (by rfl))
